import Mathlib

/-!
MyCaffe.test.extension.

A shallow embedding of `MyCaffe.test.extension.cpp`: the four exported entry points
`DLL_InitFloatCustomExtension`, `DLL_InvokeFloatCustomExtension`,
`DLL_InitDoubleCustomExtension` and `DLL_InvokeDoubleCustomExtension`, over an explicit
record of the module's global variables.

* Pointers are addresses (`Ptr`), `NULL` is address 0.
* `LONG`, `long` and `int` values are `Int`; the only arithmetic in the source is the loop
  counter, which stays below 1024.
* `float` and `double` are arbitrary types `F` and `D` carrying a multiplication; the
  products of the source are the products of these types. `Binary32` and `Binary64` are
  the integer-valued floats with products rounded as IEEE 754 rounds them.
* Undefined behaviour (a read past the end of the input, a write outside a working buffer
  or outside the error buffer, a call through a pointer that is not a callback) is the
  result `none`.
-/

namespace MyCaffeExt

/-! ## Platform constants and types -/

/-- An address; code and data pointers alike. -/
abbrev Ptr := Nat

/-- The null pointer. -/
def NULL : Ptr := 0

/-- Windows status `ERROR_INVALID_PARAMETER` (winerror.h). -/
def ERROR_INVALID_PARAMETER : Int := 87

/-- Windows status `ERROR_NOT_SUPPORTED` (winerror.h). -/
def ERROR_NOT_SUPPORTED : Int := 50

/-- Windows status `PEER_E_NOT_INITIALIZED` (p2p.h), the HRESULT 0x80630002 read as a
32-bit LONG: -2140995582. -/
def PEER_E_NOT_INITIALIZED : Int := 0x80630002 - 2 ^ 32

/-- The lookup names of `FunctionIDs.h`, a header the source includes; taken as given. -/
structure FunctionIDs where
  SZFN_INTERNAL_INVOKEFLOAT : String
  SZFN_INTERNAL_INVOKEDOUBLE : String
  SZFN_INTERNAL_ALLOCHOSTFLT : String
  SZFN_INTERNAL_ALLOCHOSTDBL : String

/-- A module handle, seen through its export table: the address exported under a name,
`NULL` when the module exports nothing under it. -/
abbrev HMODULE := String → Ptr

/-- Win32 `GetProcAddress`. -/
def GetProcAddress (hModule : HMODULE) (lpProcName : String) : Ptr :=
  hModule lpProcName

/-! ## Working buffers -/

/-- Number of elements of `m_rgDataF` and of `m_rgDataD`. -/
abbrev CAPACITY : Nat := 1024

/-- A global array `T m_rgData[1024]`. -/
abbrev WorkBuf (α : Type) := Fin CAPACITY → α

/-- The element `m_rgData[i]`; `none` outside the array. -/
def WorkBuf.read {α : Type} (b : WorkBuf α) (i : Nat) : Option α :=
  if h : i < CAPACITY then some (b ⟨i, h⟩) else none

/-- The assignment `m_rgData[i] = v`; `none` outside the array. -/
def WorkBuf.write {α : Type} (b : WorkBuf α) (i : Nat) (v : α) : Option (WorkBuf α) :=
  if h : i < CAPACITY then some (Function.update b ⟨i, h⟩ v) else none

/-! ## Host callbacks -/

/-- Arguments of one call of an allocate-host-buffer callback:
`(lKernelIdx, lCount, ppDst, pSrc, bSrcOnDevice)`. `ppDst` is the value found in `*ppDst`
on entry, `pSrc` the array the source pointer designates. -/
structure AllocArgs (α : Type) where
  lKernelIdx : Int
  lCount : Int
  ppDst : Ptr
  pSrc : WorkBuf α
  bSrcOnDevice : Bool

/-- What a call of the allocate-host-buffer callback leaves behind: its status and the
value of `*ppDst` on return. -/
structure AllocRet where
  lErr : Int
  ppDst : Ptr
  deriving DecidableEq, Repr

/-- Behaviour of an allocate-host-buffer callback. -/
abbrev AllocHostFn (α : Type) := AllocArgs α → AllocRet

/-- The code of the host process: which allocate-host-buffer callback, if any, lives at an
address, for each precision. -/
structure HostCode (F D : Type) where
  allocHostFloat : Ptr → Option (AllocHostFn F)
  allocHostDouble : Ptr → Option (AllocHostFn D)

/-- A call `(*pfn)(args)` through a function pointer; `none` when the pointer is `NULL`
or no callback of that type lives at the address. -/
def callAllocHost {α : Type} (code : Ptr → Option (AllocHostFn α)) (pfn : Ptr)
    (args : AllocArgs α) : Option AllocRet :=
  if pfn = NULL then none
  else
    match code pfn with
    | none => none
    | some f => some (f args)

/-! ## Module state and caller memory -/

/-- The global variables of the module. -/
structure ExtState (F D : Type) where
  m_pfnf : Ptr
  m_pfndf : Ptr
  m_pfnfAllocHost : Ptr
  m_pfndfAllocHost : Ptr
  m_lKernel : Int
  m_rgDataF : WorkBuf F
  m_rgDataD : WorkBuf D

/-- The caller-owned locations an invoke entry point may write: `*ppOutput`, `*plOutput`
and the characters of `szErr` (the real extent of that buffer). -/
structure CallerMem where
  pOutput : Ptr
  lOutput : Int
  szErr : List Char
  deriving DecidableEq, Repr

/-- Result of a call that returns: the returned status, the globals and the caller memory
afterwards, and the calls made to the allocate-host-buffer callback, in order. -/
structure Outcome (σ α : Type) where
  ret : Int
  state : σ
  mem : CallerMem
  calls : List (AllocArgs α)

/-! ## C runtime -/

/-- Conversion of a `LONG` to `size_t` (64-bit build). -/
def toSizeT (n : Int) : Nat := (n % 2 ^ 64).toNat

/-- The NUL character. -/
def NUL : Char := Char.ofNat 0

/-- C runtime `_tcsncpy(dest, src, count)`: exactly `count` characters of `dest` are
written, the characters of `src` first and NUL characters after them when `src` is
shorter than `count`; the rest of `dest` is kept. `none` when `count` exceeds the extent
of `dest`. `src` is given without its terminator. -/
def tcsncpy (dest src : List Char) (count : Nat) : Option (List Char) :=
  if count ≤ dest.length then
    some (src.take count ++ List.replicate (count - src.length) NUL ++ dest.drop count)
  else none

/-- The literal `_T("The function specified is not supported.")`. -/
def MSG_NOT_SUPPORTED : List Char := "The function specified is not supported.".toList

/-! ## The entry points -/

/-- The loop `for (int i = 0; i < lInput && i < 1024; i++) m_rgData[i] = op(pInput[i]);`
from its counter value `i` on. `pInput` is the memory the input pointer really designates,
`lInput` the length the caller passed. -/
def transformLoop {α : Type} (op : α → α) (pInput : List α) (lInput : Int) (i : Nat)
    (buf : WorkBuf α) : Option (WorkBuf α) :=
  if (i : Int) < lInput ∧ i < 1024 then
    match pInput[i]? with
    | none => none
    | some x =>
      match buf.write i (op x) with
      | none => none
      | some buf1 => transformLoop op pInput lInput (i + 1) buf1
  else some buf
termination_by 1024 - i
decreasing_by omega

/-- Body of `case 1`: `pInput[i] * pInput[i]`. -/
def square {α : Type} [Mul α] (x : α) : α := x * x

/-- Body of `case 2`: `pInput[i] * pInput[i] * pInput[i]`. -/
def cube {α : Type} [Mul α] (x : α) : α := x * x * x

/-- `DLL_InitFloatCustomExtension(hParent, lKernelIdx)`: the globals afterwards and the
returned status. -/
def DLL_InitFloatCustomExtension {F D : Type} (ids : FunctionIDs) (s : ExtState F D)
    (hParent : HMODULE) (lKernelIdx : Int) : ExtState F D × Int :=
  let s1 := { s with m_pfnf := GetProcAddress hParent ids.SZFN_INTERNAL_INVOKEFLOAT }
  if s1.m_pfnf = NULL then (s1, ERROR_INVALID_PARAMETER)
  else
    let s2 := { s1 with
      m_pfnfAllocHost := GetProcAddress hParent ids.SZFN_INTERNAL_ALLOCHOSTFLT }
    if s2.m_pfnfAllocHost = NULL then (s2, ERROR_INVALID_PARAMETER)
    else ({ s2 with m_lKernel := lKernelIdx }, 0)

/-- `DLL_InitDoubleCustomExtension(hParent, lKernelIdx)`: the globals afterwards and the
returned status. -/
def DLL_InitDoubleCustomExtension {F D : Type} (ids : FunctionIDs) (s : ExtState F D)
    (hParent : HMODULE) (lKernelIdx : Int) : ExtState F D × Int :=
  let s1 := { s with m_pfndf := GetProcAddress hParent ids.SZFN_INTERNAL_INVOKEDOUBLE }
  if s1.m_pfndf = NULL then (s1, ERROR_INVALID_PARAMETER)
  else
    let s2 := { s1 with
      m_pfndfAllocHost := GetProcAddress hParent ids.SZFN_INTERNAL_ALLOCHOSTDBL }
    if s2.m_pfndfAllocHost = NULL then (s2, ERROR_INVALID_PARAMETER)
    else ({ s2 with m_lKernel := lKernelIdx }, 0)

/-- Lines 61-66 of the source: the call of `m_pfnfAllocHost` on the transformed
`m_rgDataF`, and the two ways out after it. -/
def allocAndReturnFloat {F D : Type} (host : HostCode F D) (s : ExtState F D)
    (lInput : Int) (mem : CallerMem) : Option (Outcome (ExtState F D) F) :=
  let args : AllocArgs F := ⟨s.m_lKernel, lInput, mem.pOutput, s.m_rgDataF, false⟩
  match callAllocHost host.allocHostFloat s.m_pfnfAllocHost args with
  | none => none
  | some r =>
    let mem1 := { mem with pOutput := r.ppDst }
    if r.lErr ≠ 0 then some ⟨r.lErr, s, mem1, [args]⟩
    else some ⟨0, s, { mem1 with lOutput := lInput }, [args]⟩

/-- `DLL_InvokeFloatCustomExtension(lfnIdx, pInput, lInput, ppOutput, plOutput, szErr,
lErrMax)`; `mem` holds `*ppOutput`, `*plOutput` and `szErr` as the caller passes them. -/
def DLL_InvokeFloatCustomExtension {F D : Type} [Mul F] (host : HostCode F D)
    (s : ExtState F D) (lfnIdx : Int) (pInput : List F) (lInput : Int) (mem : CallerMem)
    (lErrMax : Int) : Option (Outcome (ExtState F D) F) :=
  if s.m_pfnf = NULL then some ⟨PEER_E_NOT_INITIALIZED, s, mem, []⟩
  else if lfnIdx = 1 then
    match transformLoop square pInput lInput 0 s.m_rgDataF with
    | none => none
    | some buf => allocAndReturnFloat host { s with m_rgDataF := buf } lInput mem
  else if lfnIdx = 2 then
    match transformLoop cube pInput lInput 0 s.m_rgDataF with
    | none => none
    | some buf => allocAndReturnFloat host { s with m_rgDataF := buf } lInput mem
  else
    match tcsncpy mem.szErr MSG_NOT_SUPPORTED (toSizeT lErrMax) with
    | none => none
    | some e => some ⟨ERROR_NOT_SUPPORTED, s, { mem with szErr := e }, []⟩

/-- Lines 112-117 of the source: the call of `m_pfndfAllocHost` on the transformed
`m_rgDataD`, and the two ways out after it. -/
def allocAndReturnDouble {F D : Type} (host : HostCode F D) (s : ExtState F D)
    (lInput : Int) (mem : CallerMem) : Option (Outcome (ExtState F D) D) :=
  let args : AllocArgs D := ⟨s.m_lKernel, lInput, mem.pOutput, s.m_rgDataD, false⟩
  match callAllocHost host.allocHostDouble s.m_pfndfAllocHost args with
  | none => none
  | some r =>
    let mem1 := { mem with pOutput := r.ppDst }
    if r.lErr ≠ 0 then some ⟨r.lErr, s, mem1, [args]⟩
    else some ⟨0, s, { mem1 with lOutput := lInput }, [args]⟩

/-- `DLL_InvokeDoubleCustomExtension(lfnIdx, pInput, lInput, ppOutput, plOutput, szErr,
lErrMax)`; `mem` holds `*ppOutput`, `*plOutput` and `szErr` as the caller passes them. -/
def DLL_InvokeDoubleCustomExtension {F D : Type} [Mul D] (host : HostCode F D)
    (s : ExtState F D) (lfnIdx : Int) (pInput : List D) (lInput : Int) (mem : CallerMem)
    (lErrMax : Int) : Option (Outcome (ExtState F D) D) :=
  if s.m_pfndf = NULL then some ⟨PEER_E_NOT_INITIALIZED, s, mem, []⟩
  else if lfnIdx = 1 then
    match transformLoop square pInput lInput 0 s.m_rgDataD with
    | none => none
    | some buf => allocAndReturnDouble host { s with m_rgDataD := buf } lInput mem
  else if lfnIdx = 2 then
    match transformLoop cube pInput lInput 0 s.m_rgDataD with
    | none => none
    | some buf => allocAndReturnDouble host { s with m_rgDataD := buf } lInput mem
  else
    match tcsncpy mem.szErr MSG_NOT_SUPPORTED (toSizeT lErrMax) with
    | none => none
    | some e => some ⟨ERROR_NOT_SUPPORTED, s, { mem with szErr := e }, []⟩

/-! ## The loops with their memory accesses recorded -/

/-- One array access of a transform loop: a read of `pInput[i]` or a write of
`m_rgData[i]`. -/
inductive Access where
  | read (i : Nat)
  | write (i : Nat)
  deriving DecidableEq, Repr

/-- The loop of `transformLoop`, step for step, together with the accesses it attempts in
order; an access that falls outside its array is recorded before the loop gives up. -/
def transformLoopLog {α : Type} (op : α → α) (pInput : List α) (lInput : Int) (i : Nat)
    (buf : WorkBuf α) : Option (WorkBuf α) × List Access :=
  if (i : Int) < lInput ∧ i < 1024 then
    match pInput[i]? with
    | none => (none, [Access.read i])
    | some x =>
      match buf.write i (op x) with
      | none => (none, [Access.read i, Access.write i])
      | some buf1 =>
        ((transformLoopLog op pInput lInput (i + 1) buf1).1,
          Access.read i :: Access.write i ::
            (transformLoopLog op pInput lInput (i + 1) buf1).2)
  else (some buf, [])
termination_by 1024 - i
decreasing_by all_goals omega

/-- An access is in bounds for a passed length `lInput`: a read of the input at an index
below `min lInput 1024`, a write of the working buffer at an index below its capacity. -/
def Access.inBounds (lInput : Int) : Access → Prop
  | Access.read i => (i : Int) < min lInput 1024
  | Access.write i => i < CAPACITY

/-! ## Rounded products -/

/-- Number of binary digits of `n`, by halving `n` until it is 0; the first argument
bounds the number of halvings. -/
def bitLengthAux : Nat → Nat → Nat
  | 0, _ => 0
  | fuel + 1, n => if n = 0 then 0 else bitLengthAux fuel (n / 2) + 1

/-- Number of binary digits of `n` (0 for 0). -/
def bitLength (n : Nat) : Nat := bitLengthAux n n

/-- The natural number `n` rounded to `p` significant binary digits, to nearest, ties to
the even significand: the IEEE 754 default rounding of an exact integer result. -/
def roundSignificand (p n : Nat) : Nat :=
  let e := bitLength n - p
  let q := n / 2 ^ e
  let r := n % 2 ^ e
  if 2 * r < 2 ^ e then q * 2 ^ e
  else if 2 ^ e < 2 * r then (q + 1) * 2 ^ e
  else if q % 2 = 0 then q * 2 ^ e
  else (q + 1) * 2 ^ e

/-- Rounding of an integer to `p` significant binary digits; the sign is kept. -/
def roundInt (p : Nat) (z : Int) : Int :=
  if z < 0 then -((roundSignificand p z.natAbs : Nat) : Int)
  else ((roundSignificand p z.natAbs : Nat) : Int)

/-- The values of a binary floating-point format with `p` significant digits and
overflow threshold `2 ^ emax`, as far as the examples need them: `some z` is the finite
number of integer value `z`, `none` stands for an infinity or a NaN. -/
structure IntFloat (p emax : Nat) where
  val : Option Int
  deriving DecidableEq, Repr

/-- IEEE 754 multiplication on these values: the exact product of two finite operands
rounded to `p` significant digits, an infinity when the rounded product reaches
`2 ^ emax`; not finite when an operand is not. -/
def IntFloat.mul {p emax : Nat} (a b : IntFloat p emax) : IntFloat p emax :=
  match a.val, b.val with
  | some x, some y =>
    if (roundInt p (x * y)).natAbs < 2 ^ emax then ⟨some (roundInt p (x * y))⟩ else ⟨none⟩
  | _, _ => ⟨none⟩

instance (p emax : Nat) : Mul (IntFloat p emax) := ⟨IntFloat.mul⟩

/-- Integer-valued `float` values: 24 significant digits, finite below 2^128. -/
abbrev Binary32 := IntFloat 24 128

/-- Integer-valued `double` values: 53 significant digits, finite below 2^1024. -/
abbrev Binary64 := IntFloat 53 1024

/-- The `float` of integer value `z`. -/
def f32 (z : Int) : Binary32 := ⟨some z⟩

/-- The `double` of integer value `z`. -/
def f64 (z : Int) : Binary64 := ⟨some z⟩

/-! ## Vocabulary of the statements -/

/-- Number of input elements the transform loops visit for a passed length `lInput`:
`min (max lInput 0) 1024`. -/
def readCount (lInput : Int) : Nat := min lInput.toNat 1024

/-- The working buffer `buf` with the cells `lo ≤ j < hi` replaced by `op pInput[j]`. -/
def transformed {α : Type} (op : α → α) (pInput : List α) (lo hi : Nat)
    (buf : WorkBuf α) : WorkBuf α :=
  fun j =>
    if lo ≤ j.val ∧ j.val < hi then
      match pInput[j.val]? with
      | some x => op x
      | none => buf j
    else buf j

/-- The element operation a supported selector stands for. -/
def selectedOp {α : Type} [Mul α] (lfnIdx : Int) : α → α :=
  if lfnIdx = 1 then square else cube

/-- Both float callbacks are resolved. -/
def FloatInitialized {F D : Type} (s : ExtState F D) : Prop :=
  s.m_pfnf ≠ NULL ∧ s.m_pfnfAllocHost ≠ NULL

/-- Both double callbacks are resolved. -/
def DoubleInitialized {F D : Type} (s : ExtState F D) : Prop :=
  s.m_pfndf ≠ NULL ∧ s.m_pfndfAllocHost ≠ NULL

instance {F D : Type} (s : ExtState F D) : Decidable (FloatInitialized s) := by
  unfold FloatInitialized; infer_instance

instance {F D : Type} (s : ExtState F D) : Decidable (DoubleInitialized s) := by
  unfold DoubleInitialized; infer_instance

/-- The four callback references and the kernel index agree in two states. -/
def SameResolved {F D : Type} (s t : ExtState F D) : Prop :=
  t.m_pfnf = s.m_pfnf ∧ t.m_pfnfAllocHost = s.m_pfnfAllocHost ∧
  t.m_pfndf = s.m_pfndf ∧ t.m_pfndfAllocHost = s.m_pfndfAllocHost ∧
  t.m_lKernel = s.m_lKernel

/-- The caller memory after an allocator call that returned `r`, for passed length
`lInput`: `*ppOutput` is what the callback left there, `*plOutput` is written only when
the status is 0. -/
def memAfterAlloc (mem : CallerMem) (lInput : Int) (r : AllocRet) : CallerMem :=
  if r.lErr ≠ 0 then { mem with pOutput := r.ppDst }
  else { mem with pOutput := r.ppDst, lOutput := lInput }

/-- The arguments the float entry point passes to its allocator for a supported
selector: kernel index, passed length, `*ppOutput`, the transformed `m_rgDataF`, false. -/
def floatAllocArgs {F D : Type} [Mul F] (s : ExtState F D) (lfnIdx : Int)
    (pInput : List F) (lInput : Int) (mem : CallerMem) : AllocArgs F :=
  ⟨s.m_lKernel, lInput, mem.pOutput,
    transformed (selectedOp lfnIdx) pInput 0 (readCount lInput) s.m_rgDataF, false⟩

/-- The arguments the double entry point passes to its allocator for a supported
selector: kernel index, passed length, `*ppOutput`, the transformed `m_rgDataD`, false. -/
def doubleAllocArgs {F D : Type} [Mul D] (s : ExtState F D) (lfnIdx : Int)
    (pInput : List D) (lInput : Int) (mem : CallerMem) : AllocArgs D :=
  ⟨s.m_lKernel, lInput, mem.pOutput,
    transformed (selectedOp lfnIdx) pInput 0 (readCount lInput) s.m_rgDataD, false⟩

/-- A returning float Invoke in state `t` did not stop at the initialisation guard: it
left through the `default:` branch with NotSupported and no allocator call, or it made one
allocator call and returned that call's status. -/
def FloatInvokePastGuard {F D : Type} [Mul F] (host : HostCode F D) (t : ExtState F D) :
    Prop :=
  ∀ (lfnIdx : Int) (pInput : List F) (lInput : Int) (mem : CallerMem) (lErrMax : Int)
    (r : Outcome (ExtState F D) F),
    DLL_InvokeFloatCustomExtension host t lfnIdx pInput lInput mem lErrMax = some r →
    (r.ret = ERROR_NOT_SUPPORTED ∧ r.calls = []) ∨
    (∃ f a, host.allocHostFloat t.m_pfnfAllocHost = some f ∧ r.calls = [a] ∧
      r.ret = (f a).lErr)

/-- A returning double Invoke in state `t` did not stop at the initialisation guard: it
left through the `default:` branch with NotSupported and no allocator call, or it made one
allocator call and returned that call's status. -/
def DoubleInvokePastGuard {F D : Type} [Mul D] (host : HostCode F D) (t : ExtState F D) :
    Prop :=
  ∀ (lfnIdx : Int) (pInput : List D) (lInput : Int) (mem : CallerMem) (lErrMax : Int)
    (r : Outcome (ExtState F D) D),
    DLL_InvokeDoubleCustomExtension host t lfnIdx pInput lInput mem lErrMax = some r →
    (r.ret = ERROR_NOT_SUPPORTED ∧ r.calls = []) ∨
    (∃ f a, host.allocHostDouble t.m_pfndfAllocHost = some f ∧ r.calls = [a] ∧
      r.ret = (f a).lErr)

/-! ## Concrete data for the worked examples -/

/-- Lookup names used in the examples. -/
def exIds : FunctionIDs := ⟨"InvokeFloat", "InvokeDouble", "AllocHostFloat", "AllocHostDouble"⟩

/-- The module right after loading: null callbacks, zeroed globals. -/
def exLoaded : ExtState Int Int := ⟨0, 0, 0, 0, 0, fun _ => 0, fun _ => 0⟩

/-- A host module exporting every name at address 7. -/
def exFullModule : HMODULE := fun _ => 7

/-- A host module exporting nothing. -/
def exEmptyModule : HMODULE := fun _ => 0

/-- A host module exporting only the float invoke callback. -/
def exFloatInvokeOnly : HMODULE := fun n => if n = "InvokeFloat" then 5 else 0

/-- A host module exporting only the double invoke callback. -/
def exDoubleInvokeOnly : HMODULE := fun n => if n = "InvokeDouble" then 5 else 0

/-- An allocator that succeeds and hands out address 99. -/
def exAllocOk {α : Type} : AllocHostFn α := fun _ => ⟨0, 99⟩

/-- An allocator that fails with status 14 and writes nothing. -/
def exAllocFail {α : Type} : AllocHostFn α := fun a => ⟨14, a.ppDst⟩

/-- A host whose allocators succeed. -/
def exHostOk : HostCode Int Int := ⟨fun _ => some exAllocOk, fun _ => some exAllocOk⟩

/-- A host whose allocators fail. -/
def exHostFail : HostCode Int Int := ⟨fun _ => some exAllocFail, fun _ => some exAllocFail⟩

/-- Caller memory before a call: a null output pointer, output length -1 and an error
buffer of five characters. -/
def exMem : CallerMem := ⟨0, -1, ['x', 'x', 'x', 'x', 'x']⟩

/-- Caller memory with an error buffer of 44 characters. -/
def exWideMem : CallerMem := ⟨0, -1, List.replicate 44 'x'⟩

/-- The loaded module after a successful float Initialize with kernel index 3. -/
def exFloatReady : ExtState Int Int :=
  (DLL_InitFloatCustomExtension exIds exLoaded exFullModule 3).1

/-- The loaded module after a successful double Initialize with kernel index 3. -/
def exDoubleReady : ExtState Int Int :=
  (DLL_InitDoubleCustomExtension exIds exLoaded exFullModule 3).1

/-- The loaded module after a successful Initialize of each precision. -/
def exBothReady : ExtState Int Int :=
  (DLL_InitDoubleCustomExtension exIds exFloatReady exFullModule 3).1

/-- The module right after loading, over rounded integer-valued floats. -/
def fpLoaded : ExtState Binary32 Binary64 :=
  ⟨0, 0, 0, 0, 0, fun _ => f32 0, fun _ => f64 0⟩

/-- That module after a successful Initialize of each precision with kernel index 3. -/
def fpReady : ExtState Binary32 Binary64 :=
  (DLL_InitDoubleCustomExtension exIds
    (DLL_InitFloatCustomExtension exIds fpLoaded exFullModule 3).1 exFullModule 3).1

/-- A host over rounded integer-valued floats whose allocators succeed. -/
def fpHostOk : HostCode Binary32 Binary64 :=
  ⟨fun _ => some exAllocOk, fun _ => some exAllocOk⟩

/-! ## Lemmas on the loops and the runtime -/

theorem loop_guard_iff (lInput : Int) (i : Nat) :
    ((i : Int) < lInput ∧ i < 1024) ↔ i < readCount lInput := by
  unfold readCount
  omega

theorem transformLoop_eq_aux {α : Type} (op : α → α) (pInput : List α) (lInput : Int)
    (hlen : readCount lInput ≤ pInput.length) :
    ∀ (k i : Nat) (buf : WorkBuf α), readCount lInput - i = k →
      transformLoop op pInput lInput i buf
        = some (transformed op pInput i (readCount lInput) buf) := by
  intro k
  induction k with
  | zero =>
    intro i buf hk
    rw [transformLoop]
    have hg : ¬ ((i : Int) < lInput ∧ i < 1024) := by
      rw [loop_guard_iff]; omega
    rw [if_neg hg]
    congr 1
    funext j
    unfold transformed
    rw [if_neg]
    omega
  | succ k ih =>
    intro i buf hk
    rw [transformLoop]
    have hi : i < readCount lInput := by omega
    have hg : ((i : Int) < lInput ∧ i < 1024) := (loop_guard_iff lInput i).2 hi
    have hcap : i < CAPACITY := hg.2
    have hil : i < pInput.length := by omega
    rw [if_pos hg]
    simp only [List.getElem?_eq_getElem hil, WorkBuf.write, dif_pos hcap]
    rw [ih (i + 1) _ (by omega)]
    congr 1
    funext j
    unfold transformed
    by_cases hji : j.val = i
    · have hj : j = ⟨i, hcap⟩ := Fin.ext hji
      subst hj
      simp [hi, List.getElem?_eq_getElem hil]
    · have hne : j ≠ ⟨i, hcap⟩ := fun h => hji (congrArg Fin.val h)
      have h1 : (i + 1 ≤ j.val ∧ j.val < readCount lInput) ↔
          (i ≤ j.val ∧ j.val < readCount lInput) := by omega
      simp only [h1, Function.update_noteq hne]

/-- A whole loop on an input that really holds the elements it visits: it ends, and the
buffer is the old one with the first `readCount lInput` cells transformed. -/
theorem transformLoop_eq {α : Type} (op : α → α) (pInput : List α) (lInput : Int)
    (buf : WorkBuf α) (hlen : readCount lInput ≤ pInput.length) :
    transformLoop op pInput lInput 0 buf
      = some (transformed op pInput 0 (readCount lInput) buf) :=
  transformLoop_eq_aux op pInput lInput hlen _ 0 buf rfl

/-- Reading a transformed cell. -/
theorem transformed_read {α : Type} (op : α → α) (pInput : List α) (hi : Nat)
    (buf : WorkBuf α) (i : Nat) (h1 : i < hi) (h2 : i < pInput.length) (h3 : i < 1024) :
    (transformed op pInput 0 hi buf).read i = some (op pInput[i]) := by
  have h3c : i < CAPACITY := h3
  simp [WorkBuf.read, transformed, h3c, h1, List.getElem?_eq_getElem h2]

/-- Reading a cell past the transformed range. -/
theorem transformed_read_keep {α : Type} (op : α → α) (pInput : List α) (hi : Nat)
    (buf : WorkBuf α) (i : Nat) (h1 : hi ≤ i) :
    (transformed op pInput 0 hi buf).read i = buf.read i := by
  unfold WorkBuf.read transformed
  by_cases h3 : i < CAPACITY
  · simp only [dif_pos h3]
    rw [if_neg]
    simp; omega
  · simp only [dif_neg h3]

/-! ## The paths through the invoke entry points -/

/-- The caller memory after the allocator returned `r` for passed length `lInput`. -/
theorem allocAndReturnFloat_eq {F D : Type} (host : HostCode F D) (s : ExtState F D)
    (lInput : Int) (mem : CallerMem) (f : AllocHostFn F)
    (hp : s.m_pfnfAllocHost ≠ NULL) (hf : host.allocHostFloat s.m_pfnfAllocHost = some f) :
    allocAndReturnFloat host s lInput mem
      = some ⟨(f ⟨s.m_lKernel, lInput, mem.pOutput, s.m_rgDataF, false⟩).lErr, s,
          memAfterAlloc mem lInput (f ⟨s.m_lKernel, lInput, mem.pOutput, s.m_rgDataF, false⟩),
          [⟨s.m_lKernel, lInput, mem.pOutput, s.m_rgDataF, false⟩]⟩ := by
  unfold allocAndReturnFloat callAllocHost memAfterAlloc
  simp only [if_neg hp, hf]
  by_cases h0 : (f ⟨s.m_lKernel, lInput, mem.pOutput, s.m_rgDataF, false⟩).lErr = 0
  · simp [h0]
  · simp [h0]

theorem allocAndReturnDouble_eq {F D : Type} (host : HostCode F D) (s : ExtState F D)
    (lInput : Int) (mem : CallerMem) (f : AllocHostFn D)
    (hp : s.m_pfndfAllocHost ≠ NULL) (hf : host.allocHostDouble s.m_pfndfAllocHost = some f) :
    allocAndReturnDouble host s lInput mem
      = some ⟨(f ⟨s.m_lKernel, lInput, mem.pOutput, s.m_rgDataD, false⟩).lErr, s,
          memAfterAlloc mem lInput (f ⟨s.m_lKernel, lInput, mem.pOutput, s.m_rgDataD, false⟩),
          [⟨s.m_lKernel, lInput, mem.pOutput, s.m_rgDataD, false⟩]⟩ := by
  unfold allocAndReturnDouble callAllocHost memAfterAlloc
  simp only [if_neg hp, hf]
  by_cases h0 : (f ⟨s.m_lKernel, lInput, mem.pOutput, s.m_rgDataD, false⟩).lErr = 0
  · simp [h0]
  · simp [h0]

/-- The guard of the float entry point. -/
theorem invokeFloat_guard {F D : Type} [Mul F] (host : HostCode F D) (s : ExtState F D)
    (lfnIdx : Int) (pInput : List F) (lInput : Int) (mem : CallerMem) (lErrMax : Int)
    (h : s.m_pfnf = NULL) :
    DLL_InvokeFloatCustomExtension host s lfnIdx pInput lInput mem lErrMax
      = some ⟨PEER_E_NOT_INITIALIZED, s, mem, []⟩ := by
  unfold DLL_InvokeFloatCustomExtension
  rw [if_pos h]

/-- The guard of the double entry point. -/
theorem invokeDouble_guard {F D : Type} [Mul D] (host : HostCode F D) (s : ExtState F D)
    (lfnIdx : Int) (pInput : List D) (lInput : Int) (mem : CallerMem) (lErrMax : Int)
    (h : s.m_pfndf = NULL) :
    DLL_InvokeDoubleCustomExtension host s lfnIdx pInput lInput mem lErrMax
      = some ⟨PEER_E_NOT_INITIALIZED, s, mem, []⟩ := by
  unfold DLL_InvokeDoubleCustomExtension
  rw [if_pos h]

/-- The `default:` branch of the float entry point. -/
theorem invokeFloat_default {F D : Type} [Mul F] (host : HostCode F D) (s : ExtState F D)
    (lfnIdx : Int) (pInput : List F) (lInput : Int) (mem : CallerMem) (lErrMax : Int)
    (h : s.m_pfnf ≠ NULL) (h1 : lfnIdx ≠ 1) (h2 : lfnIdx ≠ 2) :
    DLL_InvokeFloatCustomExtension host s lfnIdx pInput lInput mem lErrMax
      = (tcsncpy mem.szErr MSG_NOT_SUPPORTED (toSizeT lErrMax)).map
          (fun e => ⟨ERROR_NOT_SUPPORTED, s, { mem with szErr := e }, []⟩) := by
  unfold DLL_InvokeFloatCustomExtension
  rw [if_neg h, if_neg h1, if_neg h2]
  cases tcsncpy mem.szErr MSG_NOT_SUPPORTED (toSizeT lErrMax) <;> rfl

/-- The `default:` branch of the double entry point. -/
theorem invokeDouble_default {F D : Type} [Mul D] (host : HostCode F D) (s : ExtState F D)
    (lfnIdx : Int) (pInput : List D) (lInput : Int) (mem : CallerMem) (lErrMax : Int)
    (h : s.m_pfndf ≠ NULL) (h1 : lfnIdx ≠ 1) (h2 : lfnIdx ≠ 2) :
    DLL_InvokeDoubleCustomExtension host s lfnIdx pInput lInput mem lErrMax
      = (tcsncpy mem.szErr MSG_NOT_SUPPORTED (toSizeT lErrMax)).map
          (fun e => ⟨ERROR_NOT_SUPPORTED, s, { mem with szErr := e }, []⟩) := by
  unfold DLL_InvokeDoubleCustomExtension
  rw [if_neg h, if_neg h1, if_neg h2]
  cases tcsncpy mem.szErr MSG_NOT_SUPPORTED (toSizeT lErrMax) <;> rfl

/-- The `case 1:` and `case 2:` branches of the float entry point on an input that
really holds the elements the loop visits. -/
theorem invokeFloat_transform {F D : Type} [Mul F] (host : HostCode F D) (s : ExtState F D)
    (lfnIdx : Int) (pInput : List F) (lInput : Int) (mem : CallerMem) (lErrMax : Int)
    (f : AllocHostFn F) (h : FloatInitialized s)
    (hf : host.allocHostFloat s.m_pfnfAllocHost = some f)
    (hsel : lfnIdx = 1 ∨ lfnIdx = 2) (hlen : readCount lInput ≤ pInput.length) :
    DLL_InvokeFloatCustomExtension host s lfnIdx pInput lInput mem lErrMax
      = some ⟨(f (floatAllocArgs s lfnIdx pInput lInput mem)).lErr,
          { s with m_rgDataF := (floatAllocArgs s lfnIdx pInput lInput mem).pSrc },
          memAfterAlloc mem lInput (f (floatAllocArgs s lfnIdx pInput lInput mem)),
          [floatAllocArgs s lfnIdx pInput lInput mem]⟩ := by
  unfold DLL_InvokeFloatCustomExtension floatAllocArgs selectedOp
  rw [if_neg h.1]
  rcases hsel with h1 | h2
  · subst h1
    simp only [if_true, transformLoop_eq square pInput lInput s.m_rgDataF hlen]
    exact allocAndReturnFloat_eq host _ lInput mem f h.2 hf
  · subst h2
    simp only [show ¬ ((2 : Int) = 1) by decide, if_false, if_true,
      transformLoop_eq cube pInput lInput s.m_rgDataF hlen]
    exact allocAndReturnFloat_eq host _ lInput mem f h.2 hf

/-- The `case 1:` and `case 2:` branches of the double entry point on an input that
really holds the elements the loop visits. -/
theorem invokeDouble_transform {F D : Type} [Mul D] (host : HostCode F D)
    (s : ExtState F D) (lfnIdx : Int) (pInput : List D) (lInput : Int) (mem : CallerMem)
    (lErrMax : Int) (f : AllocHostFn D) (h : DoubleInitialized s)
    (hf : host.allocHostDouble s.m_pfndfAllocHost = some f)
    (hsel : lfnIdx = 1 ∨ lfnIdx = 2) (hlen : readCount lInput ≤ pInput.length) :
    DLL_InvokeDoubleCustomExtension host s lfnIdx pInput lInput mem lErrMax
      = some ⟨(f (doubleAllocArgs s lfnIdx pInput lInput mem)).lErr,
          { s with m_rgDataD := (doubleAllocArgs s lfnIdx pInput lInput mem).pSrc },
          memAfterAlloc mem lInput (f (doubleAllocArgs s lfnIdx pInput lInput mem)),
          [doubleAllocArgs s lfnIdx pInput lInput mem]⟩ := by
  unfold DLL_InvokeDoubleCustomExtension doubleAllocArgs selectedOp
  rw [if_neg h.1]
  rcases hsel with h1 | h2
  · subst h1
    simp only [if_true, transformLoop_eq square pInput lInput s.m_rgDataD hlen]
    exact allocAndReturnDouble_eq host _ lInput mem f h.2 hf
  · subst h2
    simp only [show ¬ ((2 : Int) = 1) by decide, if_false, if_true,
      transformLoop_eq cube pInput lInput s.m_rgDataD hlen]
    exact allocAndReturnDouble_eq host _ lInput mem f h.2 hf

/-! ## Rounding -/

theorem bitLengthAux_zero (fuel : Nat) : bitLengthAux fuel 0 = 0 := by
  cases fuel <;> simp [bitLengthAux]

/-- With as many halvings allowed as the number itself, `bitLengthAux` reaches 0: its
result is the number of binary digits. -/
theorem bitLengthAux_spec : ∀ (fuel n : Nat), n ≤ fuel →
    n < 2 ^ bitLengthAux fuel n ∧ (0 < n → 2 ^ (bitLengthAux fuel n - 1) ≤ n) := by
  intro fuel
  induction fuel with
  | zero =>
    intro n hn
    have h0 : n = 0 := by omega
    subst h0
    simp [bitLengthAux]
  | succ fuel ih =>
    intro n hn
    by_cases h0 : n = 0
    · subst h0
      simp [bitLengthAux]
    · have hm : n / 2 ≤ fuel := by omega
      obtain ⟨h1, h2⟩ := ih (n / 2) hm
      simp only [bitLengthAux, if_neg h0, Nat.add_sub_cancel]
      constructor
      · rw [pow_succ]
        omega
      · intro _
        by_cases hz : n / 2 = 0
        · rw [hz, bitLengthAux_zero]
          simp
          omega
        · have h3 := h2 (by omega)
          have hk : 1 ≤ bitLengthAux fuel (n / 2) := by
            by_contra hlt
            have hk0 : bitLengthAux fuel (n / 2) = 0 := by omega
            rw [hk0] at h1
            simp at h1
            exact hz h1
          obtain ⟨k, hk2⟩ : ∃ k, bitLengthAux fuel (n / 2) = k + 1 := ⟨_, (Nat.sub_add_cancel hk).symm⟩
          rw [hk2] at h3 ⊢
          rw [Nat.add_sub_cancel] at h3
          rw [pow_succ]
          omega

/-- The number of binary digits of `n`. -/
theorem bitLength_spec (n : Nat) :
    n < 2 ^ bitLength n ∧ (0 < n → 2 ^ (bitLength n - 1) ≤ n) :=
  bitLengthAux_spec n n (Nat.le_refl n)

/-- A number that fits in `p` binary digits is its own rounding. -/
theorem roundSignificand_of_lt (p n : Nat) (h : n < 2 ^ p) : roundSignificand p n = n := by
  have hb : bitLength n ≤ p := by
    by_cases h0 : n = 0
    · subst h0
      simp [bitLength, bitLengthAux_zero]
    · have h2 := (bitLength_spec n).2 (by omega)
      by_contra hlt
      have hle : p ≤ bitLength n - 1 := by omega
      have := Nat.pow_le_pow_right (show 0 < 2 by decide) hle
      omega
  have he : bitLength n - p = 0 := by omega
  simp [roundSignificand, he, Nat.mod_one]

/-- A product of finite values that fits the significand is exact. -/
theorem IntFloat.mul_exact (p emax : Nat) (a b : IntFloat p emax) (x y : Int)
    (ha : a.val = some x) (hb : b.val = some y) (hp : p ≤ emax)
    (h : (x * y).natAbs < 2 ^ p) : (a * b).val = some (x * y) := by
  have hr : roundInt p (x * y) = x * y := by
    unfold roundInt
    rw [roundSignificand_of_lt p _ h]
    split <;> omega
  have hlt : (x * y).natAbs < 2 ^ emax :=
    Nat.lt_of_lt_of_le h (Nat.pow_le_pow_right (by decide) hp)
  show (IntFloat.mul a b).val = some (x * y)
  unfold IntFloat.mul
  rw [ha, hb]
  simp only [hr, if_pos hlt]

/-- The product of two finite values whose rounding stays below the overflow
threshold. -/
theorem IntFloat.mul_finite (p emax : Nat) (x y r : Int) (hr : roundInt p (x * y) = r)
    (e0 : Nat) (he : e0 ≤ emax) (hlt : r.natAbs < 2 ^ e0) :
    (⟨some x⟩ : IntFloat p emax) * ⟨some y⟩ = ⟨some r⟩ := by
  have hlt2 : r.natAbs < 2 ^ emax :=
    Nat.lt_of_lt_of_le hlt (Nat.pow_le_pow_right (by decide) he)
  show IntFloat.mul ⟨some x⟩ ⟨some y⟩ = ⟨some r⟩
  unfold IntFloat.mul
  simp only [hr, if_pos hlt2]

/-- A `double` product whose rounding is below 2^64, far from overflow. -/
theorem f64_mul (x y r : Int) (hr : roundInt 53 (x * y) = r) (hlt : r.natAbs < 2 ^ 64) :
    f64 x * f64 y = f64 r :=
  IntFloat.mul_finite 53 1024 x y r hr 64 (by decide) hlt

/-! ## Square and cube of an input within capacity -/

theorem readCount_of_length (n : Nat) (h : n ≤ 1024) : readCount (n : Int) = n := by
  unfold readCount
  omega

/-- C1, amended: in a state where both callbacks of a precision are resolved, as a
successful Initialize leaves them, for a selector in {1,2} and an input of n ≤ 1024
elements passed with length n, Invoke returns after exactly one allocator call; for every
i < n the element i of the buffer handed to the allocator, which is the working buffer,
is input[i]*input[i] for selector 1 and (input[i]*input[i])*input[i] for selector 2,
where * is the multiplication of the element type itself, for the program the rounding
floating-point product of the precision; when that allocator call returns status 0,
Invoke returns 0 and the output length is n. Float and double. -/
theorem invoke_squares_or_cubes_input {F D : Type} [Mul F] [Mul D] (host : HostCode F D)
    (s : ExtState F D) (lfnIdx : Int) (mem : CallerMem) (lErrMax : Int)
    (hsel : lfnIdx = 1 ∨ lfnIdx = 2) :
    (∀ (pInput : List F) (f : AllocHostFn F), FloatInitialized s →
      host.allocHostFloat s.m_pfnfAllocHost = some f → pInput.length ≤ 1024 →
      ∃ r a, DLL_InvokeFloatCustomExtension host s lfnIdx pInput pInput.length mem lErrMax
          = some r ∧ r.calls = [a] ∧ r.state.m_rgDataF = a.pSrc ∧
        (∀ (i : Nat) (hi : i < pInput.length),
          (lfnIdx = 1 → a.pSrc.read i = some (pInput[i] * pInput[i])) ∧
          (lfnIdx = 2 → a.pSrc.read i = some (pInput[i] * pInput[i] * pInput[i]))) ∧
        ((f a).lErr = 0 → r.ret = 0 ∧ r.mem.lOutput = pInput.length)) ∧
    (∀ (pInput : List D) (f : AllocHostFn D), DoubleInitialized s →
      host.allocHostDouble s.m_pfndfAllocHost = some f → pInput.length ≤ 1024 →
      ∃ r a, DLL_InvokeDoubleCustomExtension host s lfnIdx pInput pInput.length mem lErrMax
          = some r ∧ r.calls = [a] ∧ r.state.m_rgDataD = a.pSrc ∧
        (∀ (i : Nat) (hi : i < pInput.length),
          (lfnIdx = 1 → a.pSrc.read i = some (pInput[i] * pInput[i])) ∧
          (lfnIdx = 2 → a.pSrc.read i = some (pInput[i] * pInput[i] * pInput[i]))) ∧
        ((f a).lErr = 0 → r.ret = 0 ∧ r.mem.lOutput = pInput.length)) := by
  constructor
  · intro pInput f hinit hf hcap
    have hrc : readCount (pInput.length : Int) = pInput.length :=
      readCount_of_length _ hcap
    refine ⟨_, _, invokeFloat_transform host s lfnIdx pInput _ mem lErrMax f hinit hf hsel
      (by rw [hrc]), rfl, rfl, ?_, ?_⟩
    · intro i hi
      have hrd := transformed_read (selectedOp lfnIdx) pInput (readCount (pInput.length : Int))
        s.m_rgDataF i (by rw [hrc]; exact hi) hi (by omega)
      constructor
      · intro h1
        rw [floatAllocArgs, hrd, selectedOp, if_pos h1]; rfl
      · intro h2
        have h1 : ¬ lfnIdx = 1 := by omega
        rw [floatAllocArgs, hrd, selectedOp, if_neg h1]; rfl
    · intro h0
      simp [memAfterAlloc, h0]
  · intro pInput f hinit hf hcap
    have hrc : readCount (pInput.length : Int) = pInput.length :=
      readCount_of_length _ hcap
    refine ⟨_, _, invokeDouble_transform host s lfnIdx pInput _ mem lErrMax f hinit hf hsel
      (by rw [hrc]), rfl, rfl, ?_, ?_⟩
    · intro i hi
      have hrd := transformed_read (selectedOp lfnIdx) pInput (readCount (pInput.length : Int))
        s.m_rgDataD i (by rw [hrc]; exact hi) hi (by omega)
      constructor
      · intro h1
        rw [doubleAllocArgs, hrd, selectedOp, if_pos h1]; rfl
      · intro h2
        have h1 : ¬ lfnIdx = 1 := by omega
        rw [doubleAllocArgs, hrd, selectedOp, if_neg h1]; rfl
    · intro h0
      simp [memAfterAlloc, h0]

/-- C1, worked examples, with the rounding products of the two formats: after a
successful Initialize of both precisions, float selector 1 on [2,3,4] hands the allocator
[4,9,16] and reports length 3 with status 0; double selector 2 on [2,3] hands the
allocator [8,27] and reports length 2 with status 0. -/
theorem invoke_squares_or_cubes_input_witness :
    (∃ r a, DLL_InvokeFloatCustomExtension fpHostOk fpReady 1 [f32 2, f32 3, f32 4] 3 exMem 5
          = some r ∧ r.calls = [a] ∧
        a.pSrc.read 0 = some (f32 4) ∧ a.pSrc.read 1 = some (f32 9) ∧
        a.pSrc.read 2 = some (f32 16) ∧ r.ret = 0 ∧ r.mem.lOutput = 3) ∧
    (∃ r a, DLL_InvokeDoubleCustomExtension fpHostOk fpReady 2 [f64 2, f64 3] 2 exMem 5
          = some r ∧ r.calls = [a] ∧
        a.pSrc.read 0 = some (f64 8) ∧ a.pSrc.read 1 = some (f64 27) ∧
        r.ret = 0 ∧ r.mem.lOutput = 2) := by
  have e4 : f32 2 * f32 2 = f32 4 := by decide
  have e9 : f32 3 * f32 3 = f32 9 := by decide
  have e16 : f32 4 * f32 4 = f32 16 := by decide
  have e8 : f64 2 * f64 2 * f64 2 = f64 8 := by
    rw [f64_mul 2 2 4 (by decide) (by decide), f64_mul 4 2 8 (by decide) (by decide)]
  have e27 : f64 3 * f64 3 * f64 3 = f64 27 := by
    rw [f64_mul 3 3 9 (by decide) (by decide), f64_mul 9 3 27 (by decide) (by decide)]
  constructor
  · obtain ⟨r, a, hr, hc, _, hel, hok⟩ :=
      (invoke_squares_or_cubes_input fpHostOk fpReady 1 exMem 5
        (Or.inl rfl)).1 [f32 2, f32 3, f32 4] exAllocOk (by decide) rfl (by decide)
    exact ⟨r, a, hr, hc, ((hel 0 (by decide)).1 rfl).trans (congrArg some e4),
      ((hel 1 (by decide)).1 rfl).trans (congrArg some e9),
      ((hel 2 (by decide)).1 rfl).trans (congrArg some e16), (hok rfl).1, (hok rfl).2⟩
  · obtain ⟨r, a, hr, hc, _, hel, hok⟩ :=
      (invoke_squares_or_cubes_input fpHostOk fpReady 2 exMem 5
        (Or.inr rfl)).2 [f64 2, f64 3] exAllocOk (by decide) rfl (by decide)
    exact ⟨r, a, hr, hc, ((hel 0 (by decide)).2 rfl).trans (congrArg some e8),
      ((hel 1 (by decide)).2 rfl).trans (congrArg some e27), (hok rfl).1, (hok rfl).2⟩

/-- C1 as stated, with exact products, fails where the exact product does not fit the
format: a float Invoke with selector 1 on [4097] returns status 0 with output length 1
and hands the allocator 16785408, while 4097 * 4097 = 16785409; a double Invoke with
selector 1 on [94906267] hands the allocator 9007199515875288, while
94906267 * 94906267 = 9007199515875289. -/
theorem invoke_square_is_rounded_product :
    (∃ r a, DLL_InvokeFloatCustomExtension fpHostOk fpReady 1 [f32 4097] 1 exMem 5 = some r ∧
      r.ret = 0 ∧ r.mem.lOutput = 1 ∧ r.calls = [a] ∧
      a.pSrc.read 0 = some (f32 16785408) ∧
      (4097 : Int) * 4097 = 16785409 ∧ f32 16785408 ≠ f32 (4097 * 4097)) ∧
    (∃ r a, DLL_InvokeDoubleCustomExtension fpHostOk fpReady 1 [f64 94906267] 1 exMem 5
        = some r ∧
      r.ret = 0 ∧ r.mem.lOutput = 1 ∧ r.calls = [a] ∧
      a.pSrc.read 0 = some (f64 9007199515875288) ∧
      (94906267 : Int) * 94906267 = 9007199515875289 ∧
      f64 9007199515875288 ≠ f64 (94906267 * 94906267)) := by
  have eF : f32 4097 * f32 4097 = f32 16785408 := by decide
  have eD : f64 94906267 * f64 94906267 = f64 9007199515875288 :=
    f64_mul 94906267 94906267 9007199515875288 (by decide) (by decide)
  constructor
  · refine ⟨_, _, invokeFloat_transform fpHostOk fpReady 1 [f32 4097] 1 exMem 5 exAllocOk
      (by decide) rfl (Or.inl rfl) (by decide), rfl, rfl, rfl, ?_, by decide, by decide⟩
    have hF : selectedOp 1 ([f32 4097][0]) = f32 16785408 := eF
    exact (transformed_read (selectedOp 1) [f32 4097] (readCount 1) fpReady.m_rgDataF 0
      (by decide) (by decide) (by decide)).trans (congrArg some hF)
  · refine ⟨_, _, invokeDouble_transform fpHostOk fpReady 1 [f64 94906267] 1 exMem 5
      exAllocOk (by decide) rfl (Or.inl rfl) (by decide), rfl, rfl, rfl, ?_, by decide,
      by decide⟩
    have hD : selectedOp 1 ([f64 94906267][0]) = f64 9007199515875288 := eD
    exact (transformed_read (selectedOp 1) [f64 94906267] (readCount 1) fpReady.m_rgDataD 0
      (by decide) (by decide) (by decide)).trans (congrArg some hD)

/-! ## Invoke before Initialize -/

/-- C3: in every state in which a precision has never been initialised, so that its
invoke callback reference is still null, whatever the other precision holds, Invoke of
that precision returns NotInitialized for every selector, input, passed length and error
buffer; the globals (working buffers included) and the caller memory (output pointer,
output length, error buffer) are as before, and the allocator is not called. Float and
double. -/
theorem invoke_uninitialized_returns_not_initialized {F D : Type} [Mul F] [Mul D]
    (host : HostCode F D) (s : ExtState F D) (lfnIdx lInput lErrMax : Int)
    (mem : CallerMem) :
    (∀ (pInput : List F), s.m_pfnf = NULL →
      DLL_InvokeFloatCustomExtension host s lfnIdx pInput lInput mem lErrMax
        = some ⟨PEER_E_NOT_INITIALIZED, s, mem, []⟩) ∧
    (∀ (pInput : List D), s.m_pfndf = NULL →
      DLL_InvokeDoubleCustomExtension host s lfnIdx pInput lInput mem lErrMax
        = some ⟨PEER_E_NOT_INITIALIZED, s, mem, []⟩) :=
  ⟨fun pInput h => invokeFloat_guard host s lfnIdx pInput lInput mem lErrMax h,
   fun pInput h => invokeDouble_guard host s lfnIdx pInput lInput mem lErrMax h⟩

/-- C3, worked example: with only the double precision initialised, a float Invoke
returns NotInitialized, the status -2140995582, and changes nothing; with only the float
precision initialised, a double Invoke does. -/
theorem invoke_uninitialized_returns_not_initialized_witness :
    DLL_InvokeFloatCustomExtension exHostOk exDoubleReady 1 [2, 3, 4] 3 exMem 5
      = some ⟨-2140995582, exDoubleReady, exMem, []⟩ ∧
    DLL_InvokeDoubleCustomExtension exHostOk exFloatReady 1 [2, 3, 4] 3 exMem 5
      = some ⟨-2140995582, exFloatReady, exMem, []⟩ ∧
    PEER_E_NOT_INITIALIZED = -2140995582 :=
  ⟨(invoke_uninitialized_returns_not_initialized exHostOk exDoubleReady 1 3 5 exMem).1
      [2, 3, 4] (by decide),
   (invoke_uninitialized_returns_not_initialized exHostOk exFloatReady 1 3 5 exMem).2
      [2, 3, 4] (by decide),
   by decide⟩

/-! ## The error message -/

theorem toSizeT_of_long (n : Int) (h0 : 0 ≤ n) (h1 : n < 2 ^ 31) : toSizeT n = n.toNat := by
  unfold toSizeT
  rw [Int.emod_eq_of_lt h0 (by omega)]

theorem MSG_NOT_SUPPORTED_length : MSG_NOT_SUPPORTED.length = 40 := by decide

/-- What `_tcsncpy` leaves in a destination that can hold `count` characters. -/
theorem tcsncpy_spec (dest src : List Char) (count : Nat) (h : count ≤ dest.length) :
    ∃ e, tcsncpy dest src count = some e ∧ e.length = dest.length ∧
      e.take (min count src.length) = src.take (min count src.length) ∧
      e.drop count = dest.drop count := by
  refine ⟨_, if_pos h, ?_, ?_, ?_⟩
  · simp only [List.length_append, List.length_take, List.length_replicate, List.length_drop]
    omega
  · rw [List.append_assoc, List.take_append_eq_append_take]
    simp only [List.length_take]
    have h0 : min count src.length - min count src.length = 0 := by omega
    rw [h0, List.take_zero, List.append_nil, List.take_take]
    congr 1
    omega
  · rw [List.drop_append_eq_append_drop, List.drop_eq_nil_of_le, List.nil_append]
    · have h0 : count - (List.take count src ++ List.replicate (count - src.length) NUL).length
          = 0 := by
        simp only [List.length_append, List.length_take, List.length_replicate]
        omega
      rw [h0, List.drop_zero]
    · simp only [List.length_append, List.length_take, List.length_replicate]
      omega

theorem tcsncpy_zero (dest src : List Char) : tcsncpy dest src 0 = some dest := by
  simp [tcsncpy]

/-! ## Initialize with a missing callback -/

/-- C2, the code at the failing input: a float Initialize on a module that exports the
invoke callback but not the allocate-host-buffer callback returns InvalidParameter and
leaves `m_pfnf` set; the float Invoke that follows passes its guard: with an unsupported
selector it returns NotSupported, not NotInitialized, and with selector 1 it calls
through the null `m_pfnfAllocHost`. The double entry points do the same. -/
theorem init_missing_allocator_leaves_invoke_unguarded :
    ((DLL_InitFloatCustomExtension exIds exLoaded exFloatInvokeOnly 3).2
        = ERROR_INVALID_PARAMETER ∧
      (DLL_InitFloatCustomExtension exIds exLoaded exFloatInvokeOnly 3).1.m_pfnf ≠ NULL ∧
      (DLL_InvokeFloatCustomExtension exHostOk
        (DLL_InitFloatCustomExtension exIds exLoaded exFloatInvokeOnly 3).1
        3 [2, 3, 4] 3 exMem 5).map (fun r => r.ret) = some ERROR_NOT_SUPPORTED ∧
      DLL_InvokeFloatCustomExtension exHostOk
        (DLL_InitFloatCustomExtension exIds exLoaded exFloatInvokeOnly 3).1
        1 [2, 3, 4] 3 exMem 5 = none) ∧
    ((DLL_InitDoubleCustomExtension exIds exLoaded exDoubleInvokeOnly 3).2
        = ERROR_INVALID_PARAMETER ∧
      (DLL_InitDoubleCustomExtension exIds exLoaded exDoubleInvokeOnly 3).1.m_pfndf ≠ NULL ∧
      (DLL_InvokeDoubleCustomExtension exHostOk
        (DLL_InitDoubleCustomExtension exIds exLoaded exDoubleInvokeOnly 3).1
        3 [2, 3, 4] 3 exMem 5).map (fun r => r.ret) = some ERROR_NOT_SUPPORTED ∧
      DLL_InvokeDoubleCustomExtension exHostOk
        (DLL_InitDoubleCustomExtension exIds exLoaded exDoubleInvokeOnly 3).1
        1 [2, 3, 4] 3 exMem 5 = none) ∧
    ERROR_NOT_SUPPORTED ≠ PEER_E_NOT_INITIALIZED := by
  have hF : DLL_InitFloatCustomExtension exIds exLoaded exFloatInvokeOnly 3
      = ({ exLoaded with m_pfnf := 5 }, ERROR_INVALID_PARAMETER) := by rfl
  have hD : DLL_InitDoubleCustomExtension exIds exLoaded exDoubleInvokeOnly 3
      = ({ exLoaded with m_pfndf := 5 }, ERROR_INVALID_PARAMETER) := by rfl
  refine ⟨⟨?_, ?_, ?_, ?_⟩, ⟨?_, ?_, ?_, ?_⟩, by decide⟩
  · rw [hF]
  · rw [hF]; decide
  · rw [hF, invokeFloat_default _ _ _ _ _ _ _ (by decide) (by decide) (by decide)]
    rfl
  · rw [hF]
    unfold DLL_InvokeFloatCustomExtension
    rw [if_neg (by decide), if_pos rfl,
      transformLoop_eq square _ _ _ (by decide)]
    rfl
  · rw [hD]
  · rw [hD]; decide
  · rw [hD, invokeDouble_default _ _ _ _ _ _ _ (by decide) (by decide) (by decide)]
    rfl
  · rw [hD]
    unfold DLL_InvokeDoubleCustomExtension
    rw [if_neg (by decide), if_pos rfl,
      transformLoop_eq square _ _ _ (by decide)]
    rfl

/-! ## Unsupported selectors -/

/-- What the `default:` branch leaves in an error buffer `szErr` that really holds
`lErrMax` characters, for a capacity in the range of a LONG. -/
theorem default_message (szErr : List Char) (lErrMax : Int) (h0 : 0 ≤ lErrMax)
    (hlong : lErrMax < 2 ^ 31) (hfit : lErrMax ≤ szErr.length) :
    ∃ e, tcsncpy szErr MSG_NOT_SUPPORTED (toSizeT lErrMax) = some e ∧
      e.length = szErr.length ∧
      e.take (min lErrMax.toNat 40) = MSG_NOT_SUPPORTED.take (min lErrMax.toNat 40) ∧
      e.drop lErrMax.toNat = szErr.drop lErrMax.toNat ∧
      (1 ≤ lErrMax → e.head? = some 'T') ∧ (lErrMax = 0 → e = szErr) := by
  rw [toSizeT_of_long lErrMax h0 hlong]
  obtain ⟨e, he, hl, ht, hd⟩ := tcsncpy_spec szErr MSG_NOT_SUPPORTED lErrMax.toNat (by omega)
  rw [MSG_NOT_SUPPORTED_length] at ht
  refine ⟨e, he, hl, ht, hd, ?_, ?_⟩
  · intro h1
    have hpos : 0 < min lErrMax.toNat 40 := by omega
    have h2 : (e.take (min lErrMax.toNat 40)).head? = some 'T' := by
      rw [ht]
      obtain ⟨k, hk⟩ : ∃ k, min lErrMax.toNat 40 = k + 1 := ⟨_, (Nat.succ_pred_eq_of_pos hpos).symm⟩
      rw [hk]
      rfl
    rw [List.head?_take, if_neg (by omega)] at h2
    exact h2
  · intro hz
    subst hz
    rw [show (0 : Int).toNat = 0 from rfl, tcsncpy_zero] at he
    exact (Option.some.inj he).symm

/-- C4, amended: in an Initialized state of a precision, for every selector outside
{1,2}, every input and passed length, and every error-buffer capacity c, a LONG with
0 ≤ c that the error buffer really holds, Invoke returns NotSupported; the first
min(c,40) characters of the error buffer are the first min(c,40) characters of the
message and the characters from position c on are kept; the message written is non-empty
(it starts with the message's first character) when c ≥ 1, and nothing is written when
c = 0; the output pointer and output length are not written, the globals (working
buffers included) are unchanged and the allocator is not called. Float and double. -/
theorem invoke_unsupported_selector {F D : Type} [Mul F] [Mul D] (host : HostCode F D)
    (s : ExtState F D) (lfnIdx lInput lErrMax : Int) (mem : CallerMem)
    (h1 : lfnIdx ≠ 1) (h2 : lfnIdx ≠ 2) (h0 : 0 ≤ lErrMax) (hlong : lErrMax < 2 ^ 31)
    (hfit : lErrMax ≤ mem.szErr.length) :
    (∀ (pInput : List F), FloatInitialized s →
      ∃ e, DLL_InvokeFloatCustomExtension host s lfnIdx pInput lInput mem lErrMax
          = some ⟨ERROR_NOT_SUPPORTED, s, { mem with szErr := e }, []⟩ ∧
        e.length = mem.szErr.length ∧
        e.take (min lErrMax.toNat 40) = MSG_NOT_SUPPORTED.take (min lErrMax.toNat 40) ∧
        e.drop lErrMax.toNat = mem.szErr.drop lErrMax.toNat ∧
        (1 ≤ lErrMax → e.head? = some 'T') ∧ (lErrMax = 0 → e = mem.szErr)) ∧
    (∀ (pInput : List D), DoubleInitialized s →
      ∃ e, DLL_InvokeDoubleCustomExtension host s lfnIdx pInput lInput mem lErrMax
          = some ⟨ERROR_NOT_SUPPORTED, s, { mem with szErr := e }, []⟩ ∧
        e.length = mem.szErr.length ∧
        e.take (min lErrMax.toNat 40) = MSG_NOT_SUPPORTED.take (min lErrMax.toNat 40) ∧
        e.drop lErrMax.toNat = mem.szErr.drop lErrMax.toNat ∧
        (1 ≤ lErrMax → e.head? = some 'T') ∧ (lErrMax = 0 → e = mem.szErr)) := by
  obtain ⟨e, he, hrest⟩ := default_message mem.szErr lErrMax h0 hlong hfit
  constructor
  · intro pInput hinit
    refine ⟨e, ?_, hrest⟩
    rw [invokeFloat_default host s lfnIdx pInput lInput mem lErrMax hinit.1 h1 h2, he]
    rfl
  · intro pInput hinit
    refine ⟨e, ?_, hrest⟩
    rw [invokeDouble_default host s lfnIdx pInput lInput mem lErrMax hinit.1 h1 h2, he]
    rfl

/-- C4, worked example: selector 3 with capacity 5 on a five-character error buffer
leaves "The f" there and returns NotSupported, for float and for double. -/
theorem invoke_unsupported_selector_witness :
    (∃ e, DLL_InvokeFloatCustomExtension exHostOk exBothReady 3 [2, 3, 4] 3 exMem 5
        = some ⟨ERROR_NOT_SUPPORTED, exBothReady, { exMem with szErr := e }, []⟩ ∧
      e = ['T', 'h', 'e', ' ', 'f']) ∧
    (∃ e, DLL_InvokeDoubleCustomExtension exHostOk exBothReady 3 [2, 3, 4] 3 exMem 5
        = some ⟨ERROR_NOT_SUPPORTED, exBothReady, { exMem with szErr := e }, []⟩ ∧
      e = ['T', 'h', 'e', ' ', 'f']) := by
  have h := invoke_unsupported_selector exHostOk exBothReady 3 3 5 exMem
    (by decide) (by decide) (by decide) (by decide) (by decide)
  constructor
  · obtain ⟨e, he, hl, ht, _⟩ := h.1 [2, 3, 4] (by decide)
    refine ⟨e, he, ?_⟩
    have hl5 : e.length = 5 := hl
    have ht5 : e.take 5 = ['T', 'h', 'e', ' ', 'f'] := ht
    rw [← ht5, List.take_of_length_le (by omega)]
  · obtain ⟨e, he, hl, ht, _⟩ := h.2 [2, 3, 4] (by decide)
    refine ⟨e, he, ?_⟩
    have hl5 : e.length = 5 := hl
    have ht5 : e.take 5 = ['T', 'h', 'e', ' ', 'f'] := ht
    rw [← ht5, List.take_of_length_le (by omega)]

/-- C4 as stated fails at capacity 0: in an Initialized state, selector 3 with error
capacity 0 returns NotSupported and leaves the caller memory as it was, so the error
buffer holds no non-empty beginning of the message. Float and double. -/
theorem invoke_unsupported_selector_zero_capacity :
    DLL_InvokeFloatCustomExtension exHostOk exBothReady 3 [2, 3, 4] 3 exMem 0
      = some ⟨ERROR_NOT_SUPPORTED, exBothReady, exMem, []⟩ ∧
    DLL_InvokeDoubleCustomExtension exHostOk exBothReady 3 [2, 3, 4] 3 exMem 0
      = some ⟨ERROR_NOT_SUPPORTED, exBothReady, exMem, []⟩ ∧
    FloatInitialized exBothReady ∧ DoubleInitialized exBothReady ∧
    ¬ ∃ k, 0 < k ∧ exMem.szErr.take k = MSG_NOT_SUPPORTED.take k := by
  refine ⟨?_, ?_, by decide, by decide, ?_⟩
  · rw [invokeFloat_default _ _ _ _ _ _ _ (by decide) (by decide) (by decide)]
    rfl
  · rw [invokeDouble_default _ _ _ _ _ _ _ (by decide) (by decide) (by decide)]
    rfl
  · rintro ⟨k, hk, h⟩
    obtain ⟨j, rfl⟩ : ∃ j, k = j + 1 := ⟨k - 1, by omega⟩
    have h3 := congrArg List.head? h
    have e1 : (exMem.szErr.take (j + 1)).head? = some 'x' := rfl
    have e2 : (MSG_NOT_SUPPORTED.take (j + 1)).head? = some 'T' := rfl
    rw [e1, e2] at h3
    exact absurd h3 (by decide)

/-! ## Allocator failure -/

/-- C5: in an Initialized state of a precision, for a selector in {1,2} and an input
that really holds the elements the loop visits, if the allocation callback returns a
non-zero status e for the call made, Invoke returns exactly e and the output length keeps
its prior value. Float and double. -/
theorem invoke_propagates_allocator_failure {F D : Type} [Mul F] [Mul D]
    (host : HostCode F D) (s : ExtState F D) (lfnIdx lInput lErrMax : Int)
    (mem : CallerMem) (e : Int) (hsel : lfnIdx = 1 ∨ lfnIdx = 2) (he : e ≠ 0) :
    (∀ (pInput : List F) (f : AllocHostFn F), FloatInitialized s →
      host.allocHostFloat s.m_pfnfAllocHost = some f →
      readCount lInput ≤ pInput.length →
      (f (floatAllocArgs s lfnIdx pInput lInput mem)).lErr = e →
      ∃ r, DLL_InvokeFloatCustomExtension host s lfnIdx pInput lInput mem lErrMax = some r ∧
        r.ret = e ∧ r.mem.lOutput = mem.lOutput ∧
        r.calls = [floatAllocArgs s lfnIdx pInput lInput mem]) ∧
    (∀ (pInput : List D) (f : AllocHostFn D), DoubleInitialized s →
      host.allocHostDouble s.m_pfndfAllocHost = some f →
      readCount lInput ≤ pInput.length →
      (f (doubleAllocArgs s lfnIdx pInput lInput mem)).lErr = e →
      ∃ r, DLL_InvokeDoubleCustomExtension host s lfnIdx pInput lInput mem lErrMax = some r ∧
        r.ret = e ∧ r.mem.lOutput = mem.lOutput ∧
        r.calls = [doubleAllocArgs s lfnIdx pInput lInput mem]) := by
  constructor
  · intro pInput f hinit hf hlen hfe
    refine ⟨_, invokeFloat_transform host s lfnIdx pInput lInput mem lErrMax f hinit hf hsel
      hlen, hfe, ?_, rfl⟩
    simp [memAfterAlloc, hfe, he]
  · intro pInput f hinit hf hlen hfe
    refine ⟨_, invokeDouble_transform host s lfnIdx pInput lInput mem lErrMax f hinit hf hsel
      hlen, hfe, ?_, rfl⟩
    simp [memAfterAlloc, hfe, he]

/-- C5, worked example: with an allocator that fails with status 14, squaring [2,3,4]
returns 14 and the output length is still -1, for float and for double. -/
theorem invoke_propagates_allocator_failure_witness :
    (∃ r, DLL_InvokeFloatCustomExtension exHostFail exBothReady 1 [2, 3, 4] 3 exMem 5
        = some r ∧ r.ret = 14 ∧ r.mem.lOutput = -1) ∧
    (∃ r, DLL_InvokeDoubleCustomExtension exHostFail exBothReady 1 [2, 3, 4] 3 exMem 5
        = some r ∧ r.ret = 14 ∧ r.mem.lOutput = -1) := by
  have h := invoke_propagates_allocator_failure exHostFail exBothReady 1 3 5 exMem 14
    (Or.inl rfl) (by decide)
  constructor
  · obtain ⟨r, hr, h1, h2, _⟩ := h.1 [2, 3, 4] exAllocFail (by decide) rfl (by decide) rfl
    exact ⟨r, hr, h1, h2⟩
  · obtain ⟨r, hr, h1, h2, _⟩ := h.2 [2, 3, 4] exAllocFail (by decide) rfl (by decide) rfl
    exact ⟨r, hr, h1, h2⟩

/-! ## Inputs longer than the working buffer -/

theorem readCount_of_gt (lInput : Int) (h : 1024 < lInput) : readCount lInput = 1024 := by
  unfold readCount
  omega

/-- The loops never look at input elements from index `hi` on. -/
theorem transformed_take {α : Type} (op : α → α) (pInput : List α) (hi : Nat)
    (buf : WorkBuf α) :
    transformed op (pInput.take hi) 0 hi buf = transformed op pInput 0 hi buf := by
  funext j
  unfold transformed
  by_cases h : 0 ≤ j.val ∧ j.val < hi
  · rw [if_pos h, if_pos h, List.getElem?_take_of_lt h.2]
  · rw [if_neg h, if_neg h]

/-- C6: in an Initialized state of a precision, for a selector in {1,2} and an input
passed with a length n > 1024 that really holds at least 1024 elements, Invoke returns
after one allocator call; each of the 1024 cells of the working buffer handed to the
allocator holds the square or cube of the input element of the same index; the outcome
is the same when the input memory ends after 1024 elements, so no element at an index
≥ 1024 is read; and when the allocator returns 0, Invoke returns 0 and the output length
is n, not 1024. Float and double. -/
theorem invoke_long_input_truncates {F D : Type} [Mul F] [Mul D] (host : HostCode F D)
    (s : ExtState F D) (lfnIdx lInput lErrMax : Int) (mem : CallerMem)
    (hsel : lfnIdx = 1 ∨ lfnIdx = 2) (hn : 1024 < lInput) :
    (∀ (pInput : List F) (f : AllocHostFn F), FloatInitialized s →
      host.allocHostFloat s.m_pfnfAllocHost = some f → 1024 ≤ pInput.length →
      ∃ r a, DLL_InvokeFloatCustomExtension host s lfnIdx pInput lInput mem lErrMax = some r ∧
        r.calls = [a] ∧ r.state.m_rgDataF = a.pSrc ∧
        (∀ (i : Nat) (hi : i < pInput.length), i < 1024 →
          a.pSrc.read i = some (selectedOp lfnIdx pInput[i])) ∧
        DLL_InvokeFloatCustomExtension host s lfnIdx (pInput.take 1024) lInput mem lErrMax
          = some r ∧
        ((f a).lErr = 0 → r.ret = 0 ∧ r.mem.lOutput = lInput ∧ r.mem.lOutput ≠ 1024)) ∧
    (∀ (pInput : List D) (f : AllocHostFn D), DoubleInitialized s →
      host.allocHostDouble s.m_pfndfAllocHost = some f → 1024 ≤ pInput.length →
      ∃ r a, DLL_InvokeDoubleCustomExtension host s lfnIdx pInput lInput mem lErrMax = some r ∧
        r.calls = [a] ∧ r.state.m_rgDataD = a.pSrc ∧
        (∀ (i : Nat) (hi : i < pInput.length), i < 1024 →
          a.pSrc.read i = some (selectedOp lfnIdx pInput[i])) ∧
        DLL_InvokeDoubleCustomExtension host s lfnIdx (pInput.take 1024) lInput mem lErrMax
          = some r ∧
        ((f a).lErr = 0 → r.ret = 0 ∧ r.mem.lOutput = lInput ∧ r.mem.lOutput ≠ 1024)) := by
  have hrc : readCount lInput = 1024 := readCount_of_gt lInput hn
  constructor
  · intro pInput f hinit hf hlen
    refine ⟨_, _, invokeFloat_transform host s lfnIdx pInput lInput mem lErrMax f hinit hf hsel
      (by omega), rfl, rfl, ?_, ?_, ?_⟩
    · intro i hi hi2
      exact transformed_read (selectedOp lfnIdx) pInput (readCount lInput) s.m_rgDataF i
        (by omega) hi hi2
    · rw [invokeFloat_transform host s lfnIdx (pInput.take 1024) lInput mem lErrMax f hinit hf
        hsel (by rw [List.length_take]; omega)]
      have hargs : floatAllocArgs s lfnIdx (pInput.take 1024) lInput mem
          = floatAllocArgs s lfnIdx pInput lInput mem := by
        unfold floatAllocArgs
        rw [hrc, transformed_take]
      rw [hargs]
    · intro h0
      have hl : (memAfterAlloc mem lInput
          (f (floatAllocArgs s lfnIdx pInput lInput mem))).lOutput = lInput := by
        simp [memAfterAlloc, h0]
      exact ⟨h0, hl, fun h => by have h3 := hl.symm.trans h; omega⟩
  · intro pInput f hinit hf hlen
    refine ⟨_, _, invokeDouble_transform host s lfnIdx pInput lInput mem lErrMax f hinit hf hsel
      (by omega), rfl, rfl, ?_, ?_, ?_⟩
    · intro i hi hi2
      exact transformed_read (selectedOp lfnIdx) pInput (readCount lInput) s.m_rgDataD i
        (by omega) hi hi2
    · rw [invokeDouble_transform host s lfnIdx (pInput.take 1024) lInput mem lErrMax f hinit hf
        hsel (by rw [List.length_take]; omega)]
      have hargs : doubleAllocArgs s lfnIdx (pInput.take 1024) lInput mem
          = doubleAllocArgs s lfnIdx pInput lInput mem := by
        unfold doubleAllocArgs
        rw [hrc, transformed_take]
      rw [hargs]
    · intro h0
      have hl : (memAfterAlloc mem lInput
          (f (doubleAllocArgs s lfnIdx pInput lInput mem))).lOutput = lInput := by
        simp [memAfterAlloc, h0]
      exact ⟨h0, hl, fun h => by have h3 := hl.symm.trans h; omega⟩

/-- C6, worked example: 1030 threes passed with length 1030 and selector 1: the first and
the last cell of the buffer handed to the allocator hold 9, the status is 0 and the
output length is 1030, for float and for double. -/
theorem invoke_long_input_truncates_witness :
    (∃ r a, DLL_InvokeFloatCustomExtension exHostOk exBothReady 1 (List.replicate 1030 3)
          1030 exMem 5 = some r ∧ r.calls = [a] ∧
        a.pSrc.read 0 = some 9 ∧ a.pSrc.read 1023 = some 9 ∧
        r.ret = 0 ∧ r.mem.lOutput = 1030) ∧
    (∃ r a, DLL_InvokeDoubleCustomExtension exHostOk exBothReady 1 (List.replicate 1030 3)
          1030 exMem 5 = some r ∧ r.calls = [a] ∧
        a.pSrc.read 0 = some 9 ∧ a.pSrc.read 1023 = some 9 ∧
        r.ret = 0 ∧ r.mem.lOutput = 1030) := by
  have h := invoke_long_input_truncates exHostOk exBothReady 1 1030 5 exMem (Or.inl rfl)
    (by decide)
  have hlen : (List.replicate 1030 (3 : Int)).length = 1030 := List.length_replicate 1030 3
  have hget : ∀ (i : Nat) (hi : i < (List.replicate 1030 (3 : Int)).length),
      selectedOp 1 (List.replicate 1030 (3 : Int))[i] = 9 := by
    intro i hi
    rw [List.getElem_replicate]
    rfl
  constructor
  · obtain ⟨r, a, hr, hc, _, hel, _, hok⟩ :=
      h.1 (List.replicate 1030 3) exAllocOk (by decide) rfl (by rw [hlen]; decide)
    refine ⟨r, a, hr, hc, ?_, ?_, (hok rfl).1, (hok rfl).2.1⟩
    · rw [hel 0 (by rw [hlen]; decide) (by decide), hget]
    · rw [hel 1023 (by rw [hlen]; decide) (by decide), hget]
  · obtain ⟨r, a, hr, hc, _, hel, _, hok⟩ :=
      h.2 (List.replicate 1030 3) exAllocOk (by decide) rfl (by rw [hlen]; decide)
    refine ⟨r, a, hr, hc, ?_, ?_, (hok rfl).1, (hok rfl).2.1⟩
    · rw [hel 0 (by rw [hlen]; decide) (by decide), hget]
    · rw [hel 1023 (by rw [hlen]; decide) (by decide), hget]

/-! ## Every way out of the invoke entry points -/

/-- A returning float Invoke left through one of the three returns of the source: the
guard, the `default:` branch, or after the allocator call. -/
theorem invokeFloat_returns {F D : Type} [Mul F] (host : HostCode F D) (s : ExtState F D)
    (lfnIdx : Int) (pInput : List F) (lInput : Int) (mem : CallerMem) (lErrMax : Int)
    (r : Outcome (ExtState F D) F)
    (hr : DLL_InvokeFloatCustomExtension host s lfnIdx pInput lInput mem lErrMax = some r) :
    (s.m_pfnf = NULL ∧ r = ⟨PEER_E_NOT_INITIALIZED, s, mem, []⟩) ∨
    (s.m_pfnf ≠ NULL ∧ lfnIdx ≠ 1 ∧ lfnIdx ≠ 2 ∧
      ∃ e, r = ⟨ERROR_NOT_SUPPORTED, s, { mem with szErr := e }, []⟩) ∨
    (s.m_pfnf ≠ NULL ∧ (lfnIdx = 1 ∨ lfnIdx = 2) ∧ s.m_pfnfAllocHost ≠ NULL ∧
      ∃ buf f, host.allocHostFloat s.m_pfnfAllocHost = some f ∧
        transformLoop (selectedOp lfnIdx) pInput lInput 0 s.m_rgDataF = some buf ∧
        r = ⟨(f ⟨s.m_lKernel, lInput, mem.pOutput, buf, false⟩).lErr,
          { s with m_rgDataF := buf },
          memAfterAlloc mem lInput (f ⟨s.m_lKernel, lInput, mem.pOutput, buf, false⟩),
          [⟨s.m_lKernel, lInput, mem.pOutput, buf, false⟩]⟩) := by
  by_cases hg : s.m_pfnf = NULL
  · left
    rw [invokeFloat_guard host s lfnIdx pInput lInput mem lErrMax hg] at hr
    exact ⟨hg, (Option.some.inj hr).symm⟩
  · right
    by_cases hsel : lfnIdx = 1 ∨ lfnIdx = 2
    · right
      have hloop : DLL_InvokeFloatCustomExtension host s lfnIdx pInput lInput mem lErrMax
          = match transformLoop (selectedOp lfnIdx) pInput lInput 0 s.m_rgDataF with
            | none => none
            | some buf => allocAndReturnFloat host { s with m_rgDataF := buf } lInput mem := by
        unfold DLL_InvokeFloatCustomExtension selectedOp
        rw [if_neg hg]
        rcases hsel with h1 | h2
        · subst h1; simp only [if_true]
        · subst h2; simp only [show ¬ ((2 : Int) = 1) by decide, if_false, if_true]
      rw [hloop] at hr
      cases hbuf : transformLoop (selectedOp lfnIdx) pInput lInput 0 s.m_rgDataF with
      | none => rw [hbuf] at hr; exact absurd hr (by simp)
      | some buf =>
        rw [hbuf] at hr
        simp only at hr
        by_cases hp : s.m_pfnfAllocHost = NULL
        · simp [allocAndReturnFloat, callAllocHost, hp] at hr
        · cases hf : host.allocHostFloat s.m_pfnfAllocHost with
          | none => simp [allocAndReturnFloat, callAllocHost, hp, hf] at hr
          | some f =>
            rw [allocAndReturnFloat_eq host { s with m_rgDataF := buf } lInput mem f hp hf]
              at hr
            exact ⟨hg, hsel, hp, buf, f, rfl, rfl, (Option.some.inj hr).symm⟩
    · left
      have h1 : lfnIdx ≠ 1 := fun h => hsel (Or.inl h)
      have h2 : lfnIdx ≠ 2 := fun h => hsel (Or.inr h)
      rw [invokeFloat_default host s lfnIdx pInput lInput mem lErrMax hg h1 h2] at hr
      cases he : tcsncpy mem.szErr MSG_NOT_SUPPORTED (toSizeT lErrMax) with
      | none => rw [he] at hr; exact absurd hr (by simp)
      | some e =>
        rw [he] at hr
        exact ⟨hg, h1, h2, e, (Option.some.inj hr).symm⟩

/-- A returning double Invoke left through one of the three returns of the source: the
guard, the `default:` branch, or after the allocator call. -/
theorem invokeDouble_returns {F D : Type} [Mul D] (host : HostCode F D) (s : ExtState F D)
    (lfnIdx : Int) (pInput : List D) (lInput : Int) (mem : CallerMem) (lErrMax : Int)
    (r : Outcome (ExtState F D) D)
    (hr : DLL_InvokeDoubleCustomExtension host s lfnIdx pInput lInput mem lErrMax = some r) :
    (s.m_pfndf = NULL ∧ r = ⟨PEER_E_NOT_INITIALIZED, s, mem, []⟩) ∨
    (s.m_pfndf ≠ NULL ∧ lfnIdx ≠ 1 ∧ lfnIdx ≠ 2 ∧
      ∃ e, r = ⟨ERROR_NOT_SUPPORTED, s, { mem with szErr := e }, []⟩) ∨
    (s.m_pfndf ≠ NULL ∧ (lfnIdx = 1 ∨ lfnIdx = 2) ∧ s.m_pfndfAllocHost ≠ NULL ∧
      ∃ buf f, host.allocHostDouble s.m_pfndfAllocHost = some f ∧
        transformLoop (selectedOp lfnIdx) pInput lInput 0 s.m_rgDataD = some buf ∧
        r = ⟨(f ⟨s.m_lKernel, lInput, mem.pOutput, buf, false⟩).lErr,
          { s with m_rgDataD := buf },
          memAfterAlloc mem lInput (f ⟨s.m_lKernel, lInput, mem.pOutput, buf, false⟩),
          [⟨s.m_lKernel, lInput, mem.pOutput, buf, false⟩]⟩) := by
  by_cases hg : s.m_pfndf = NULL
  · left
    rw [invokeDouble_guard host s lfnIdx pInput lInput mem lErrMax hg] at hr
    exact ⟨hg, (Option.some.inj hr).symm⟩
  · right
    by_cases hsel : lfnIdx = 1 ∨ lfnIdx = 2
    · right
      have hloop : DLL_InvokeDoubleCustomExtension host s lfnIdx pInput lInput mem lErrMax
          = match transformLoop (selectedOp lfnIdx) pInput lInput 0 s.m_rgDataD with
            | none => none
            | some buf => allocAndReturnDouble host { s with m_rgDataD := buf } lInput mem := by
        unfold DLL_InvokeDoubleCustomExtension selectedOp
        rw [if_neg hg]
        rcases hsel with h1 | h2
        · subst h1; simp only [if_true]
        · subst h2; simp only [show ¬ ((2 : Int) = 1) by decide, if_false, if_true]
      rw [hloop] at hr
      cases hbuf : transformLoop (selectedOp lfnIdx) pInput lInput 0 s.m_rgDataD with
      | none => rw [hbuf] at hr; exact absurd hr (by simp)
      | some buf =>
        rw [hbuf] at hr
        simp only at hr
        by_cases hp : s.m_pfndfAllocHost = NULL
        · simp [allocAndReturnDouble, callAllocHost, hp] at hr
        · cases hf : host.allocHostDouble s.m_pfndfAllocHost with
          | none => simp [allocAndReturnDouble, callAllocHost, hp, hf] at hr
          | some f =>
            rw [allocAndReturnDouble_eq host { s with m_rgDataD := buf } lInput mem f hp hf]
              at hr
            exact ⟨hg, hsel, hp, buf, f, rfl, rfl, (Option.some.inj hr).symm⟩
    · left
      have h1 : lfnIdx ≠ 1 := fun h => hsel (Or.inl h)
      have h2 : lfnIdx ≠ 2 := fun h => hsel (Or.inr h)
      rw [invokeDouble_default host s lfnIdx pInput lInput mem lErrMax hg h1 h2] at hr
      cases he : tcsncpy mem.szErr MSG_NOT_SUPPORTED (toSizeT lErrMax) with
      | none => rw [he] at hr; exact absurd hr (by simp)
      | some e =>
        rw [he] at hr
        exact ⟨hg, h1, h2, e, (Option.some.inj hr).symm⟩

theorem status_codes_nonzero :
    PEER_E_NOT_INITIALIZED ≠ 0 ∧ ERROR_NOT_SUPPORTED ≠ 0 ∧ ERROR_INVALID_PARAMETER ≠ 0 := by
  decide

/-- The output length after an allocator call that returned 0. -/
theorem memAfterAlloc_lOutput (mem : CallerMem) (lInput : Int) (r : AllocRet)
    (h : r.lErr = 0) : (memAfterAlloc mem lInput r).lOutput = lInput := by
  simp [memAfterAlloc, h]

/-! ## The reported output length -/

/-- C7 as stated fails for an input longer than the working buffer: squaring 1030
elements passed with length 1030 returns status 0 and reports output length 1030, which
is not min(1030, 1024) and exceeds the 1024-element capacity. Float and double. -/
theorem invoke_success_length_exceeds_capacity :
    (∃ r, DLL_InvokeFloatCustomExtension exHostOk exBothReady 1 (List.replicate 1030 3)
          1030 exMem 5 = some r ∧ r.ret = 0 ∧ r.mem.lOutput = 1030 ∧
        r.mem.lOutput ≠ min 1030 1024 ∧ (CAPACITY : Int) < r.mem.lOutput) ∧
    (∃ r, DLL_InvokeDoubleCustomExtension exHostOk exBothReady 1 (List.replicate 1030 3)
          1030 exMem 5 = some r ∧ r.ret = 0 ∧ r.mem.lOutput = 1030 ∧
        r.mem.lOutput ≠ min 1030 1024 ∧ (CAPACITY : Int) < r.mem.lOutput) := by
  have hlen : readCount 1030 ≤ (List.replicate 1030 (3 : Int)).length := by
    rw [List.length_replicate]; decide
  constructor
  · refine ⟨_, invokeFloat_transform exHostOk exBothReady 1 (List.replicate 1030 3) 1030 exMem
      5 exAllocOk (by decide) rfl (Or.inl rfl) hlen, rfl, rfl, ?_, ?_⟩
    · show (1030 : Int) ≠ min 1030 1024
      decide
    · show (CAPACITY : Int) < 1030
      decide
  · refine ⟨_, invokeDouble_transform exHostOk exBothReady 1 (List.replicate 1030 3) 1030
      exMem 5 exAllocOk (by decide) rfl (Or.inl rfl) hlen, rfl, rfl, ?_, ?_⟩
    · show (1030 : Int) ≠ min 1030 1024
      decide
    · show (CAPACITY : Int) < 1030
      decide

/-- C7, amended: on every successful Invoke (status 0) of either precision the reported
output length is the passed input length n itself; it equals min(n, 1024) exactly when
n ≤ 1024. -/
theorem invoke_success_reports_passed_length {F D : Type} [Mul F] [Mul D]
    (host : HostCode F D) (s : ExtState F D) (lfnIdx lInput lErrMax : Int)
    (mem : CallerMem) :
    (∀ (pInput : List F) (r : Outcome (ExtState F D) F),
      DLL_InvokeFloatCustomExtension host s lfnIdx pInput lInput mem lErrMax = some r →
      r.ret = 0 →
      r.mem.lOutput = lInput ∧ (r.mem.lOutput = min lInput 1024 ↔ lInput ≤ 1024)) ∧
    (∀ (pInput : List D) (r : Outcome (ExtState F D) D),
      DLL_InvokeDoubleCustomExtension host s lfnIdx pInput lInput mem lErrMax = some r →
      r.ret = 0 →
      r.mem.lOutput = lInput ∧ (r.mem.lOutput = min lInput 1024 ↔ lInput ≤ 1024)) := by
  constructor
  · intro pInput r hr h0
    have hl : r.mem.lOutput = lInput := by
      rcases invokeFloat_returns host s lfnIdx pInput lInput mem lErrMax r hr with
        ⟨_, rfl⟩ | ⟨_, _, _, e, rfl⟩ | ⟨_, _, _, buf, f, _, _, rfl⟩
      · exact absurd h0 status_codes_nonzero.1
      · exact absurd h0 status_codes_nonzero.2.1
      · exact memAfterAlloc_lOutput mem lInput _ h0
    rw [hl]
    exact ⟨rfl, by omega⟩
  · intro pInput r hr h0
    have hl : r.mem.lOutput = lInput := by
      rcases invokeDouble_returns host s lfnIdx pInput lInput mem lErrMax r hr with
        ⟨_, rfl⟩ | ⟨_, _, _, e, rfl⟩ | ⟨_, _, _, buf, f, _, _, rfl⟩
      · exact absurd h0 status_codes_nonzero.1
      · exact absurd h0 status_codes_nonzero.2.1
      · exact memAfterAlloc_lOutput mem lInput _ h0
    rw [hl]
    exact ⟨rfl, by omega⟩

/-- C7, worked example: a successful cube of [2,3] reports output length 2, for float
and for double. -/
theorem invoke_success_reports_passed_length_witness :
    (∃ r, DLL_InvokeFloatCustomExtension exHostOk exBothReady 2 [2, 3] 2 exMem 5 = some r ∧
      r.ret = 0 ∧ r.mem.lOutput = 2) ∧
    (∃ r, DLL_InvokeDoubleCustomExtension exHostOk exBothReady 2 [2, 3] 2 exMem 5 = some r ∧
      r.ret = 0 ∧ r.mem.lOutput = 2) := by
  have hF := invokeFloat_transform exHostOk exBothReady 2 [2, 3] 2 exMem 5 exAllocOk
    (by decide) rfl (Or.inr rfl) (by decide)
  have hD := invokeDouble_transform exHostOk exBothReady 2 [2, 3] 2 exMem 5 exAllocOk
    (by decide) rfl (Or.inr rfl) (by decide)
  exact ⟨⟨_, hF, rfl,
      ((invoke_success_reports_passed_length exHostOk exBothReady 2 2 5 exMem).1
        [2, 3] _ hF rfl).1⟩,
    ⟨_, hD, rfl,
      ((invoke_success_reports_passed_length exHostOk exBothReady 2 2 5 exMem).2
        [2, 3] _ hD rfl).1⟩⟩

/-! ## The initialise entry points -/

/-- C8: for every host handle, prior state and kernel index k, Initialize of a precision
returns 0 if and only if both of that precision's named callbacks resolve, and returns
InvalidParameter otherwise; when it returns 0 the state afterwards is the prior state
with exactly that precision's two callback references replaced by the resolved addresses
and the kernel index replaced by k, so the precision is Initialized. Float and double. -/
theorem init_succeeds_iff_both_resolve {F D : Type} (ids : FunctionIDs) (s : ExtState F D)
    (hParent : HMODULE) (lKernelIdx : Int) :
    (((DLL_InitFloatCustomExtension ids s hParent lKernelIdx).2 = 0 ↔
        (GetProcAddress hParent ids.SZFN_INTERNAL_INVOKEFLOAT ≠ NULL ∧
          GetProcAddress hParent ids.SZFN_INTERNAL_ALLOCHOSTFLT ≠ NULL)) ∧
      ((DLL_InitFloatCustomExtension ids s hParent lKernelIdx).2 ≠ 0 →
        (DLL_InitFloatCustomExtension ids s hParent lKernelIdx).2 = ERROR_INVALID_PARAMETER) ∧
      ((DLL_InitFloatCustomExtension ids s hParent lKernelIdx).2 = 0 →
        (DLL_InitFloatCustomExtension ids s hParent lKernelIdx).1 =
          { s with
            m_pfnf := GetProcAddress hParent ids.SZFN_INTERNAL_INVOKEFLOAT
            m_pfnfAllocHost := GetProcAddress hParent ids.SZFN_INTERNAL_ALLOCHOSTFLT
            m_lKernel := lKernelIdx } ∧
        FloatInitialized (DLL_InitFloatCustomExtension ids s hParent lKernelIdx).1)) ∧
    (((DLL_InitDoubleCustomExtension ids s hParent lKernelIdx).2 = 0 ↔
        (GetProcAddress hParent ids.SZFN_INTERNAL_INVOKEDOUBLE ≠ NULL ∧
          GetProcAddress hParent ids.SZFN_INTERNAL_ALLOCHOSTDBL ≠ NULL)) ∧
      ((DLL_InitDoubleCustomExtension ids s hParent lKernelIdx).2 ≠ 0 →
        (DLL_InitDoubleCustomExtension ids s hParent lKernelIdx).2 = ERROR_INVALID_PARAMETER) ∧
      ((DLL_InitDoubleCustomExtension ids s hParent lKernelIdx).2 = 0 →
        (DLL_InitDoubleCustomExtension ids s hParent lKernelIdx).1 =
          { s with
            m_pfndf := GetProcAddress hParent ids.SZFN_INTERNAL_INVOKEDOUBLE
            m_pfndfAllocHost := GetProcAddress hParent ids.SZFN_INTERNAL_ALLOCHOSTDBL
            m_lKernel := lKernelIdx } ∧
        DoubleInitialized (DLL_InitDoubleCustomExtension ids s hParent lKernelIdx).1)) := by
  have hne := status_codes_nonzero.2.2
  constructor
  · unfold DLL_InitFloatCustomExtension FloatInitialized
    by_cases h1 : GetProcAddress hParent ids.SZFN_INTERNAL_INVOKEFLOAT = NULL
    · simp [h1, hne]
    · by_cases h2 : GetProcAddress hParent ids.SZFN_INTERNAL_ALLOCHOSTFLT = NULL
      · simp [h1, h2, hne]
      · simp [h1, h2]
  · unfold DLL_InitDoubleCustomExtension DoubleInitialized
    by_cases h1 : GetProcAddress hParent ids.SZFN_INTERNAL_INVOKEDOUBLE = NULL
    · simp [h1, hne]
    · by_cases h2 : GetProcAddress hParent ids.SZFN_INTERNAL_ALLOCHOSTDBL = NULL
      · simp [h1, h2, hne]
      · simp [h1, h2]

/-- C8, worked example: on a module exporting every callback at address 7, Initialize
with kernel index 3 returns 0 and stores 7, 7 and 3; on a module exporting nothing it
returns InvalidParameter. Float and double. -/
theorem init_succeeds_iff_both_resolve_witness :
    ((DLL_InitFloatCustomExtension exIds exLoaded exFullModule 3).2 = 0 ∧
      (DLL_InitFloatCustomExtension exIds exLoaded exFullModule 3).1
        = { exLoaded with m_pfnf := 7, m_pfnfAllocHost := 7, m_lKernel := 3 } ∧
      (DLL_InitFloatCustomExtension exIds exLoaded exEmptyModule 3).2
        = ERROR_INVALID_PARAMETER) ∧
    ((DLL_InitDoubleCustomExtension exIds exLoaded exFullModule 3).2 = 0 ∧
      (DLL_InitDoubleCustomExtension exIds exLoaded exFullModule 3).1
        = { exLoaded with m_pfndf := 7, m_pfndfAllocHost := 7, m_lKernel := 3 } ∧
      (DLL_InitDoubleCustomExtension exIds exLoaded exEmptyModule 3).2
        = ERROR_INVALID_PARAMETER) := by
  have hfull := init_succeeds_iff_both_resolve exIds exLoaded exFullModule 3
  have hempty := init_succeeds_iff_both_resolve exIds exLoaded exEmptyModule 3
  have hF0 : (DLL_InitFloatCustomExtension exIds exLoaded exFullModule 3).2 = 0 :=
    hfull.1.1.2 (by decide)
  have hD0 : (DLL_InitDoubleCustomExtension exIds exLoaded exFullModule 3).2 = 0 :=
    hfull.2.1.2 (by decide)
  exact ⟨⟨hF0, (hfull.1.2.2 hF0).1,
      hempty.1.2.1 (fun h => absurd (hempty.1.1.1 h).1 (by decide))⟩,
    ⟨hD0, (hfull.2.2.2 hD0).1,
      hempty.2.2.1 (fun h => absurd (hempty.2.1.1 h).1 (by decide))⟩⟩

/-! ## What the entry points leave in the resolved state -/

/-- A returning float Invoke changes no global other than `m_rgDataF`. -/
theorem invokeFloat_frame {F D : Type} [Mul F] (host : HostCode F D) (s : ExtState F D)
    (lfnIdx : Int) (pInput : List F) (lInput : Int) (mem : CallerMem) (lErrMax : Int)
    (r : Outcome (ExtState F D) F)
    (hr : DLL_InvokeFloatCustomExtension host s lfnIdx pInput lInput mem lErrMax = some r) :
    SameResolved s r.state ∧ r.state.m_rgDataD = s.m_rgDataD := by
  rcases invokeFloat_returns host s lfnIdx pInput lInput mem lErrMax r hr with
    ⟨_, rfl⟩ | ⟨_, _, _, e, rfl⟩ | ⟨_, _, _, buf, f, _, _, rfl⟩ <;>
  exact ⟨⟨rfl, rfl, rfl, rfl, rfl⟩, rfl⟩

/-- A returning double Invoke changes no global other than `m_rgDataD`. -/
theorem invokeDouble_frame {F D : Type} [Mul D] (host : HostCode F D) (s : ExtState F D)
    (lfnIdx : Int) (pInput : List D) (lInput : Int) (mem : CallerMem) (lErrMax : Int)
    (r : Outcome (ExtState F D) D)
    (hr : DLL_InvokeDoubleCustomExtension host s lfnIdx pInput lInput mem lErrMax = some r) :
    SameResolved s r.state ∧ r.state.m_rgDataF = s.m_rgDataF := by
  rcases invokeDouble_returns host s lfnIdx pInput lInput mem lErrMax r hr with
    ⟨_, rfl⟩ | ⟨_, _, _, e, rfl⟩ | ⟨_, _, _, buf, f, _, _, rfl⟩ <;>
  exact ⟨⟨rfl, rfl, rfl, rfl, rfl⟩, rfl⟩

theorem floatInitialized_of_same {F D : Type} (s t : ExtState F D) (h : SameResolved s t)
    (hs : FloatInitialized s) : FloatInitialized t := by
  unfold FloatInitialized at *
  rw [h.1, h.2.1]
  exact hs

theorem doubleInitialized_of_same {F D : Type} (s t : ExtState F D) (h : SameResolved s t)
    (hs : DoubleInitialized s) : DoubleInitialized t := by
  unfold DoubleInitialized at *
  rw [h.2.2.1, h.2.2.2.1]
  exact hs

/-- With the float invoke callback resolved, a returning float Invoke is past the guard. -/
theorem floatInvokePastGuard_of_initialized {F D : Type} [Mul F] (host : HostCode F D)
    (t : ExtState F D) (ht : FloatInitialized t) : FloatInvokePastGuard host t := by
  intro lfnIdx pInput lInput mem lErrMax r hr
  rcases invokeFloat_returns host t lfnIdx pInput lInput mem lErrMax r hr with
    ⟨h0, _⟩ | ⟨_, _, _, e, rfl⟩ | ⟨_, _, _, buf, f, hf, _, rfl⟩
  · exact absurd h0 ht.1
  · exact Or.inl ⟨rfl, rfl⟩
  · exact Or.inr ⟨f, _, hf, rfl, rfl⟩

/-- With the double invoke callback resolved, a returning double Invoke is past the
guard. -/
theorem doubleInvokePastGuard_of_initialized {F D : Type} [Mul D] (host : HostCode F D)
    (t : ExtState F D) (ht : DoubleInitialized t) : DoubleInvokePastGuard host t := by
  intro lfnIdx pInput lInput mem lErrMax r hr
  rcases invokeDouble_returns host t lfnIdx pInput lInput mem lErrMax r hr with
    ⟨h0, _⟩ | ⟨_, _, _, e, rfl⟩ | ⟨_, _, _, buf, f, hf, _, rfl⟩
  · exact absurd h0 ht.1
  · exact Or.inl ⟨rfl, rfl⟩
  · exact Or.inr ⟨f, _, hf, rfl, rfl⟩

/-! ## Failures and the resolved state -/

/-- C9 as stated fails for Initialize: after a successful Initialize that resolved the
invoke callback at address 7, an Initialize of the same precision on a module exporting
nothing returns InvalidParameter, a non-zero status, and leaves the invoke callback
reference null, so the resolved references are not the same as before. Float and
double. -/
theorem failing_init_overwrites_resolved_callback :
    ((DLL_InitFloatCustomExtension exIds exLoaded exFullModule 3).2 = 0 ∧
      exFloatReady.m_pfnf = 7 ∧
      (DLL_InitFloatCustomExtension exIds exFloatReady exEmptyModule 4).2
        = ERROR_INVALID_PARAMETER ∧
      (DLL_InitFloatCustomExtension exIds exFloatReady exEmptyModule 4).2 ≠ 0 ∧
      (DLL_InitFloatCustomExtension exIds exFloatReady exEmptyModule 4).1.m_pfnf = NULL ∧
      ¬ SameResolved exFloatReady
        (DLL_InitFloatCustomExtension exIds exFloatReady exEmptyModule 4).1) ∧
    ((DLL_InitDoubleCustomExtension exIds exLoaded exFullModule 3).2 = 0 ∧
      exDoubleReady.m_pfndf = 7 ∧
      (DLL_InitDoubleCustomExtension exIds exDoubleReady exEmptyModule 4).2
        = ERROR_INVALID_PARAMETER ∧
      (DLL_InitDoubleCustomExtension exIds exDoubleReady exEmptyModule 4).2 ≠ 0 ∧
      (DLL_InitDoubleCustomExtension exIds exDoubleReady exEmptyModule 4).1.m_pfndf = NULL ∧
      ¬ SameResolved exDoubleReady
        (DLL_InitDoubleCustomExtension exIds exDoubleReady exEmptyModule 4).1) := by
  refine ⟨⟨rfl, rfl, rfl, by decide, rfl, ?_⟩, ⟨rfl, rfl, rfl, by decide, rfl, ?_⟩⟩
  · intro h
    exact absurd h.1 (by decide)
  · intro h
    exact absurd h.2.2.1 (by decide)

/-- A failing float Initialize stopped at the first or at the second lookup, and the
state it leaves is the prior one with the references assigned up to there. -/
theorem initFloat_fail_state {F D : Type} (ids : FunctionIDs) (s : ExtState F D)
    (hParent : HMODULE) (k : Int)
    (h : (DLL_InitFloatCustomExtension ids s hParent k).2 ≠ 0) :
    (GetProcAddress hParent ids.SZFN_INTERNAL_INVOKEFLOAT = NULL ∧
      (DLL_InitFloatCustomExtension ids s hParent k).1 = { s with m_pfnf := NULL }) ∨
    (GetProcAddress hParent ids.SZFN_INTERNAL_INVOKEFLOAT ≠ NULL ∧
      GetProcAddress hParent ids.SZFN_INTERNAL_ALLOCHOSTFLT = NULL ∧
      (DLL_InitFloatCustomExtension ids s hParent k).1 = { s with
        m_pfnf := GetProcAddress hParent ids.SZFN_INTERNAL_INVOKEFLOAT
        m_pfnfAllocHost := NULL }) := by
  unfold DLL_InitFloatCustomExtension at h ⊢
  by_cases h1 : GetProcAddress hParent ids.SZFN_INTERNAL_INVOKEFLOAT = NULL
  · left
    simp [h1]
  · by_cases h2 : GetProcAddress hParent ids.SZFN_INTERNAL_ALLOCHOSTFLT = NULL
    · right
      simp [h1, h2]
    · simp [h1, h2] at h

/-- A failing double Initialize stopped at the first or at the second lookup, and the
state it leaves is the prior one with the references assigned up to there. -/
theorem initDouble_fail_state {F D : Type} (ids : FunctionIDs) (s : ExtState F D)
    (hParent : HMODULE) (k : Int)
    (h : (DLL_InitDoubleCustomExtension ids s hParent k).2 ≠ 0) :
    (GetProcAddress hParent ids.SZFN_INTERNAL_INVOKEDOUBLE = NULL ∧
      (DLL_InitDoubleCustomExtension ids s hParent k).1 = { s with m_pfndf := NULL }) ∨
    (GetProcAddress hParent ids.SZFN_INTERNAL_INVOKEDOUBLE ≠ NULL ∧
      GetProcAddress hParent ids.SZFN_INTERNAL_ALLOCHOSTDBL = NULL ∧
      (DLL_InitDoubleCustomExtension ids s hParent k).1 = { s with
        m_pfndf := GetProcAddress hParent ids.SZFN_INTERNAL_INVOKEDOUBLE
        m_pfndfAllocHost := NULL }) := by
  unfold DLL_InitDoubleCustomExtension at h ⊢
  by_cases h1 : GetProcAddress hParent ids.SZFN_INTERNAL_INVOKEDOUBLE = NULL
  · left
    simp [h1]
  · by_cases h2 : GetProcAddress hParent ids.SZFN_INTERNAL_ALLOCHOSTDBL = NULL
    · right
      simp [h1, h2]
    · simp [h1, h2] at h

/-- C9, amended: a failing Invoke of either precision (non-zero status) leaves the
callback references of both precisions and the kernel index as they were. A failing
Initialize leaves the kernel index, the working buffers and the other precision's two
callback references as they were, and changes its own precision's references only: when
the invoke lookup fails, the invoke callback reference becomes null and the allocator
reference is kept; when only the allocator lookup fails, the invoke callback reference
holds the newly resolved address and the allocator reference becomes null. Hence a
failing Initialize issued in a state where that precision is Initialized never leaves the
previously resolved callbacks in place. -/
theorem failures_and_resolved_state {F D : Type} [Mul F] [Mul D] (host : HostCode F D)
    (ids : FunctionIDs) (s : ExtState F D) :
    (∀ (lfnIdx : Int) (pInput : List F) (lInput : Int) (mem : CallerMem) (lErrMax : Int)
      (r : Outcome (ExtState F D) F),
      DLL_InvokeFloatCustomExtension host s lfnIdx pInput lInput mem lErrMax = some r →
      r.ret ≠ 0 → SameResolved s r.state) ∧
    (∀ (lfnIdx : Int) (pInput : List D) (lInput : Int) (mem : CallerMem) (lErrMax : Int)
      (r : Outcome (ExtState F D) D),
      DLL_InvokeDoubleCustomExtension host s lfnIdx pInput lInput mem lErrMax = some r →
      r.ret ≠ 0 → SameResolved s r.state) ∧
    (∀ (hParent : HMODULE) (lKernelIdx : Int),
      (DLL_InitFloatCustomExtension ids s hParent lKernelIdx).2 ≠ 0 →
      ((GetProcAddress hParent ids.SZFN_INTERNAL_INVOKEFLOAT = NULL ∧
          (DLL_InitFloatCustomExtension ids s hParent lKernelIdx).1
            = { s with m_pfnf := NULL }) ∨
        (GetProcAddress hParent ids.SZFN_INTERNAL_INVOKEFLOAT ≠ NULL ∧
          GetProcAddress hParent ids.SZFN_INTERNAL_ALLOCHOSTFLT = NULL ∧
          (DLL_InitFloatCustomExtension ids s hParent lKernelIdx).1 = { s with
            m_pfnf := GetProcAddress hParent ids.SZFN_INTERNAL_INVOKEFLOAT
            m_pfnfAllocHost := NULL })) ∧
      (DLL_InitFloatCustomExtension ids s hParent lKernelIdx).1.m_lKernel = s.m_lKernel ∧
      (DLL_InitFloatCustomExtension ids s hParent lKernelIdx).1.m_pfndf = s.m_pfndf ∧
      (DLL_InitFloatCustomExtension ids s hParent lKernelIdx).1.m_pfndfAllocHost
        = s.m_pfndfAllocHost ∧
      (DLL_InitFloatCustomExtension ids s hParent lKernelIdx).1.m_pfnf
        = GetProcAddress hParent ids.SZFN_INTERNAL_INVOKEFLOAT ∧
      (FloatInitialized s →
        ¬ SameResolved s (DLL_InitFloatCustomExtension ids s hParent lKernelIdx).1)) ∧
    (∀ (hParent : HMODULE) (lKernelIdx : Int),
      (DLL_InitDoubleCustomExtension ids s hParent lKernelIdx).2 ≠ 0 →
      ((GetProcAddress hParent ids.SZFN_INTERNAL_INVOKEDOUBLE = NULL ∧
          (DLL_InitDoubleCustomExtension ids s hParent lKernelIdx).1
            = { s with m_pfndf := NULL }) ∨
        (GetProcAddress hParent ids.SZFN_INTERNAL_INVOKEDOUBLE ≠ NULL ∧
          GetProcAddress hParent ids.SZFN_INTERNAL_ALLOCHOSTDBL = NULL ∧
          (DLL_InitDoubleCustomExtension ids s hParent lKernelIdx).1 = { s with
            m_pfndf := GetProcAddress hParent ids.SZFN_INTERNAL_INVOKEDOUBLE
            m_pfndfAllocHost := NULL })) ∧
      (DLL_InitDoubleCustomExtension ids s hParent lKernelIdx).1.m_lKernel = s.m_lKernel ∧
      (DLL_InitDoubleCustomExtension ids s hParent lKernelIdx).1.m_pfnf = s.m_pfnf ∧
      (DLL_InitDoubleCustomExtension ids s hParent lKernelIdx).1.m_pfnfAllocHost
        = s.m_pfnfAllocHost ∧
      (DLL_InitDoubleCustomExtension ids s hParent lKernelIdx).1.m_pfndf
        = GetProcAddress hParent ids.SZFN_INTERNAL_INVOKEDOUBLE ∧
      (DoubleInitialized s →
        ¬ SameResolved s (DLL_InitDoubleCustomExtension ids s hParent lKernelIdx).1)) := by
  refine ⟨?_, ?_, ?_, ?_⟩
  · intro lfnIdx pInput lInput mem lErrMax r hr _
    exact (invokeFloat_frame host s lfnIdx pInput lInput mem lErrMax r hr).1
  · intro lfnIdx pInput lInput mem lErrMax r hr _
    exact (invokeDouble_frame host s lfnIdx pInput lInput mem lErrMax r hr).1
  · intro hParent lKernelIdx hne
    have hc := initFloat_fail_state ids s hParent lKernelIdx hne
    refine ⟨hc, ?_⟩
    rcases hc with ⟨h1, he⟩ | ⟨h1, h2, he⟩
    · rw [he]
      exact ⟨rfl, rfl, rfl, h1.symm, fun hs hsame => hs.1 hsame.1.symm⟩
    · rw [he]
      exact ⟨rfl, rfl, rfl, rfl, fun hs hsame => hs.2 hsame.2.1.symm⟩
  · intro hParent lKernelIdx hne
    have hc := initDouble_fail_state ids s hParent lKernelIdx hne
    refine ⟨hc, ?_⟩
    rcases hc with ⟨h1, he⟩ | ⟨h1, h2, he⟩
    · rw [he]
      exact ⟨rfl, rfl, rfl, h1.symm, fun hs hsame => hs.1 hsame.2.2.1.symm⟩
    · rw [he]
      exact ⟨rfl, rfl, rfl, rfl, fun hs hsame => hs.2 hsame.2.2.2.1.symm⟩

/-- C9, worked example: with both precisions initialised at address 7 and kernel index
3, a float Invoke with unsupported selector 3 fails and keeps every reference; a float
Initialize on a module exporting nothing fails, nulls the float invoke reference and
keeps everything else; a float Initialize on a module exporting only the float invoke
callback at address 5 fails, stores 5 and nulls the float allocator reference. -/
theorem failures_and_resolved_state_witness :
    (∃ r, DLL_InvokeFloatCustomExtension exHostOk exBothReady 3 [2, 3, 4] 3 exMem 5 = some r ∧
      r.ret ≠ 0 ∧ SameResolved exBothReady r.state) ∧
    ((DLL_InitFloatCustomExtension exIds exBothReady exEmptyModule 4).2 ≠ 0 ∧
      (DLL_InitFloatCustomExtension exIds exBothReady exEmptyModule 4).1
        = { exBothReady with m_pfnf := NULL } ∧
      ¬ SameResolved exBothReady
        (DLL_InitFloatCustomExtension exIds exBothReady exEmptyModule 4).1) ∧
    ((DLL_InitFloatCustomExtension exIds exBothReady exFloatInvokeOnly 4).2 ≠ 0 ∧
      (DLL_InitFloatCustomExtension exIds exBothReady exFloatInvokeOnly 4).1
        = { exBothReady with m_pfnf := 5, m_pfnfAllocHost := NULL } ∧
      (DLL_InitFloatCustomExtension exIds exBothReady exFloatInvokeOnly 4).1.m_lKernel = 3 ∧
      (DLL_InitFloatCustomExtension exIds exBothReady exFloatInvokeOnly 4).1.m_pfndf = 7 ∧
      (DLL_InitFloatCustomExtension exIds exBothReady exFloatInvokeOnly 4).1.m_pfndfAllocHost
        = 7) := by
  have h := failures_and_resolved_state exHostOk exIds exBothReady
  have hne : (DLL_InitFloatCustomExtension exIds exBothReady exEmptyModule 4).2 ≠ 0 := by
    decide
  have hne2 : (DLL_InitFloatCustomExtension exIds exBothReady exFloatInvokeOnly 4).2 ≠ 0 := by
    decide
  have hr : DLL_InvokeFloatCustomExtension exHostOk exBothReady 3 [2, 3, 4] 3 exMem 5
      = some ⟨ERROR_NOT_SUPPORTED, exBothReady,
          { exMem with szErr := ['T', 'h', 'e', ' ', 'f'] }, []⟩ := by
    rw [invokeFloat_default _ _ _ _ _ _ _ (by decide) (by decide) (by decide)]
    rfl
  have hE := h.2.2.1 exEmptyModule 4 hne
  have hI := h.2.2.1 exFloatInvokeOnly 4 hne2
  refine ⟨⟨_, hr, by decide, h.1 3 [2, 3, 4] 3 exMem 5 _ hr (by decide)⟩,
    ⟨hne, ?_, hE.2.2.2.2.2 (by decide)⟩,
    ⟨hne2, ?_, hI.2.1, hI.2.2.1, hI.2.2.2.1⟩⟩
  · rcases hE.1 with ⟨_, he⟩ | ⟨h1, _, _⟩
    · exact he
    · exact absurd rfl h1
  · rcases hI.1 with ⟨h1, _⟩ | ⟨_, _, he⟩
    · exact absurd h1 (by decide)
    · exact he

/-! ## Initialized stays Initialized -/

/-- C10: every returning Invoke call of either precision, with any selector, input,
error buffer and allocator outcome, leaves the four callback references and the kernel
index unchanged; so a precision that was Initialized is still Initialized, and a further
Invoke of it does not stop at the initialisation guard, the one return of
NotInitialized: it leaves through the `default:` branch with NotSupported and no
allocator call, or it makes one allocator call and returns that call's status. -/
theorem invoke_keeps_initialized {F D : Type} [Mul F] [Mul D] (host : HostCode F D)
    (s : ExtState F D) (lfnIdx lInput lErrMax : Int) (mem : CallerMem) :
    (∀ (pInput : List F) (r : Outcome (ExtState F D) F),
      DLL_InvokeFloatCustomExtension host s lfnIdx pInput lInput mem lErrMax = some r →
      SameResolved s r.state ∧
      (FloatInitialized s → FloatInitialized r.state ∧ FloatInvokePastGuard host r.state) ∧
      (DoubleInitialized s →
        DoubleInitialized r.state ∧ DoubleInvokePastGuard host r.state)) ∧
    (∀ (pInput : List D) (r : Outcome (ExtState F D) D),
      DLL_InvokeDoubleCustomExtension host s lfnIdx pInput lInput mem lErrMax = some r →
      SameResolved s r.state ∧
      (FloatInitialized s → FloatInitialized r.state ∧ FloatInvokePastGuard host r.state) ∧
      (DoubleInitialized s →
        DoubleInitialized r.state ∧ DoubleInvokePastGuard host r.state)) := by
  constructor
  · intro pInput r hr
    have hs := (invokeFloat_frame host s lfnIdx pInput lInput mem lErrMax r hr).1
    exact ⟨hs,
      fun h => ⟨floatInitialized_of_same s r.state hs h,
        floatInvokePastGuard_of_initialized host r.state
          (floatInitialized_of_same s r.state hs h)⟩,
      fun h => ⟨doubleInitialized_of_same s r.state hs h,
        doubleInvokePastGuard_of_initialized host r.state
          (doubleInitialized_of_same s r.state hs h)⟩⟩
  · intro pInput r hr
    have hs := (invokeDouble_frame host s lfnIdx pInput lInput mem lErrMax r hr).1
    exact ⟨hs,
      fun h => ⟨floatInitialized_of_same s r.state hs h,
        floatInvokePastGuard_of_initialized host r.state
          (floatInitialized_of_same s r.state hs h)⟩,
      fun h => ⟨doubleInitialized_of_same s r.state hs h,
        doubleInvokePastGuard_of_initialized host r.state
          (doubleInitialized_of_same s r.state hs h)⟩⟩

/-- C10, worked example: with both precisions initialised, a float Invoke whose
allocator fails with status 14 returns that status and leaves both precisions
Initialized with the same references, and the further float Invoke with unsupported
selector 3 returns NotSupported. -/
theorem invoke_keeps_initialized_witness :
    ∃ r r2, DLL_InvokeFloatCustomExtension exHostFail exBothReady 1 [2, 3, 4] 3 exMem 5
        = some r ∧ r.ret = 14 ∧ SameResolved exBothReady r.state ∧
      FloatInitialized r.state ∧ DoubleInitialized r.state ∧
      FloatInvokePastGuard exHostFail r.state ∧
      DLL_InvokeFloatCustomExtension exHostFail r.state 3 [2, 3, 4] 3 exMem 5 = some r2 ∧
      r2.ret = ERROR_NOT_SUPPORTED := by
  have hr := invokeFloat_transform exHostFail exBothReady 1 [2, 3, 4] 3 exMem 5 exAllocFail
    (by decide) rfl (Or.inl rfl) (by decide)
  have h := (invoke_keeps_initialized exHostFail exBothReady 1 3 5 exMem).1 [2, 3, 4] _ hr
  have hF := h.2.1 (by decide)
  have hD := h.2.2 (by decide)
  have h2 : DLL_InvokeFloatCustomExtension exHostFail
      { exBothReady with m_rgDataF := (floatAllocArgs exBothReady 1 [2, 3, 4] 3 exMem).pSrc }
      3 [2, 3, 4] 3 exMem 5
      = some ⟨ERROR_NOT_SUPPORTED,
          { exBothReady with
            m_rgDataF := (floatAllocArgs exBothReady 1 [2, 3, 4] 3 exMem).pSrc },
          { exMem with szErr := ['T', 'h', 'e', ' ', 'f'] }, []⟩ := by
    rw [invokeFloat_default _ _ _ _ _ _ _ hF.1.1 (by decide) (by decide)]
    rfl
  exact ⟨_, _, hr, rfl, h.1, hF.1, hD.1, hF.2, h2, rfl⟩

/-! ## The allocator call -/

/-- C11: in an Initialized state of a precision, for a selector in {1,2} and an input
passed with length n that really holds the elements the loop visits, Invoke makes exactly
one allocator call; its arguments are the kernel index held in the state, the element
count n as passed (also when n > 1024), the working buffer after the transform as source
(its visited cells hold the transformed input, and it is the working buffer the call
leaves in the state) and the flag false; the output pointer the caller gets is the one
that call left, and the returned status is that call's status. Float and double. -/
theorem invoke_calls_allocator_once {F D : Type} [Mul F] [Mul D] (host : HostCode F D)
    (s : ExtState F D) (lfnIdx lInput lErrMax : Int) (mem : CallerMem)
    (hsel : lfnIdx = 1 ∨ lfnIdx = 2) :
    (∀ (pInput : List F) (f : AllocHostFn F), FloatInitialized s →
      host.allocHostFloat s.m_pfnfAllocHost = some f → readCount lInput ≤ pInput.length →
      ∃ r a, DLL_InvokeFloatCustomExtension host s lfnIdx pInput lInput mem lErrMax = some r ∧
        r.calls = [a] ∧ a.lKernelIdx = s.m_lKernel ∧ a.lCount = lInput ∧
        a.bSrcOnDevice = false ∧ a.pSrc = r.state.m_rgDataF ∧
        (∀ (i : Nat) (hi : i < pInput.length), i < readCount lInput →
          a.pSrc.read i = some (selectedOp lfnIdx pInput[i])) ∧
        r.mem.pOutput = (f a).ppDst ∧ r.ret = (f a).lErr) ∧
    (∀ (pInput : List D) (f : AllocHostFn D), DoubleInitialized s →
      host.allocHostDouble s.m_pfndfAllocHost = some f → readCount lInput ≤ pInput.length →
      ∃ r a, DLL_InvokeDoubleCustomExtension host s lfnIdx pInput lInput mem lErrMax = some r ∧
        r.calls = [a] ∧ a.lKernelIdx = s.m_lKernel ∧ a.lCount = lInput ∧
        a.bSrcOnDevice = false ∧ a.pSrc = r.state.m_rgDataD ∧
        (∀ (i : Nat) (hi : i < pInput.length), i < readCount lInput →
          a.pSrc.read i = some (selectedOp lfnIdx pInput[i])) ∧
        r.mem.pOutput = (f a).ppDst ∧ r.ret = (f a).lErr) := by
  have hcap : readCount lInput ≤ 1024 := by unfold readCount; omega
  constructor
  · intro pInput f hinit hf hlen
    refine ⟨_, _, invokeFloat_transform host s lfnIdx pInput lInput mem lErrMax f hinit hf hsel
      hlen, rfl, rfl, rfl, rfl, rfl, ?_, ?_, rfl⟩
    · intro i hi hi2
      exact transformed_read (selectedOp lfnIdx) pInput (readCount lInput) s.m_rgDataF i
        hi2 hi (by omega)
    · by_cases h0 : (f (floatAllocArgs s lfnIdx pInput lInput mem)).lErr = 0 <;>
        simp [memAfterAlloc, h0]
  · intro pInput f hinit hf hlen
    refine ⟨_, _, invokeDouble_transform host s lfnIdx pInput lInput mem lErrMax f hinit hf hsel
      hlen, rfl, rfl, rfl, rfl, rfl, ?_, ?_, rfl⟩
    · intro i hi hi2
      exact transformed_read (selectedOp lfnIdx) pInput (readCount lInput) s.m_rgDataD i
        hi2 hi (by omega)
    · by_cases h0 : (f (doubleAllocArgs s lfnIdx pInput lInput mem)).lErr = 0 <;>
        simp [memAfterAlloc, h0]

/-- C11, worked example: squaring [2,3,4] after both precisions were initialised with
kernel index 3 makes one allocator call with kernel index 3, count 3, flag false and a
source starting 4, 9, 16; the caller gets the address 99 the allocator handed out. Float
and double. -/
theorem invoke_calls_allocator_once_witness :
    (∃ r a, DLL_InvokeFloatCustomExtension exHostOk exBothReady 1 [2, 3, 4] 3 exMem 5 = some r ∧
      r.calls = [a] ∧ a.lKernelIdx = 3 ∧ a.lCount = 3 ∧ a.bSrcOnDevice = false ∧
      a.pSrc.read 0 = some 4 ∧ a.pSrc.read 1 = some 9 ∧ a.pSrc.read 2 = some 16 ∧
      r.mem.pOutput = 99) ∧
    (∃ r a, DLL_InvokeDoubleCustomExtension exHostOk exBothReady 1 [2, 3, 4] 3 exMem 5 = some r ∧
      r.calls = [a] ∧ a.lKernelIdx = 3 ∧ a.lCount = 3 ∧ a.bSrcOnDevice = false ∧
      a.pSrc.read 0 = some 4 ∧ a.pSrc.read 1 = some 9 ∧ a.pSrc.read 2 = some 16 ∧
      r.mem.pOutput = 99) := by
  have h := invoke_calls_allocator_once exHostOk exBothReady 1 3 5 exMem (Or.inl rfl)
  constructor
  · obtain ⟨r, a, hr, hc, hk, hn, hb, _, hel, hp, _⟩ :=
      h.1 [2, 3, 4] exAllocOk (by decide) rfl (by decide)
    exact ⟨r, a, hr, hc, hk, hn, hb, hel 0 (by decide) (by decide),
      hel 1 (by decide) (by decide), hel 2 (by decide) (by decide), hp⟩
  · obtain ⟨r, a, hr, hc, hk, hn, hb, _, hel, hp, _⟩ :=
      h.2 [2, 3, 4] exAllocOk (by decide) rfl (by decide)
    exact ⟨r, a, hr, hc, hk, hn, hb, hel 0 (by decide) (by decide),
      hel 1 (by decide) (by decide), hel 2 (by decide) (by decide), hp⟩

/-! ## Initialize twice -/

/-- C12: for each precision, every state, host handle h and kernel index k, a second
Initialize(h, k) right after the first returns the same status as the first and leaves
the state the first one left. -/
theorem init_idempotent {F D : Type} (ids : FunctionIDs) (s : ExtState F D)
    (hParent : HMODULE) (lKernelIdx : Int) :
    (DLL_InitFloatCustomExtension ids
        (DLL_InitFloatCustomExtension ids s hParent lKernelIdx).1 hParent lKernelIdx
      = DLL_InitFloatCustomExtension ids s hParent lKernelIdx) ∧
    (DLL_InitDoubleCustomExtension ids
        (DLL_InitDoubleCustomExtension ids s hParent lKernelIdx).1 hParent lKernelIdx
      = DLL_InitDoubleCustomExtension ids s hParent lKernelIdx) := by
  constructor
  · unfold DLL_InitFloatCustomExtension
    by_cases h1 : GetProcAddress hParent ids.SZFN_INTERNAL_INVOKEFLOAT = NULL
    · simp [h1]
    · by_cases h2 : GetProcAddress hParent ids.SZFN_INTERNAL_ALLOCHOSTFLT = NULL
      · simp [h1, h2]
      · simp [h1, h2]
  · unfold DLL_InitDoubleCustomExtension
    by_cases h1 : GetProcAddress hParent ids.SZFN_INTERNAL_INVOKEDOUBLE = NULL
    · simp [h1]
    · by_cases h2 : GetProcAddress hParent ids.SZFN_INTERNAL_ALLOCHOSTDBL = NULL
      · simp [h1, h2]
      · simp [h1, h2]

/-! ## The shared kernel index -/

/-- What a successful float Initialize leaves. -/
theorem initFloat_success {F D : Type} (ids : FunctionIDs) (s s1 : ExtState F D)
    (hParent : HMODULE) (k : Int)
    (h : DLL_InitFloatCustomExtension ids s hParent k = (s1, 0)) :
    FloatInitialized s1 ∧ s1.m_lKernel = k ∧ s1.m_pfndf = s.m_pfndf ∧
      s1.m_pfndfAllocHost = s.m_pfndfAllocHost := by
  have hne := status_codes_nonzero.2.2
  unfold DLL_InitFloatCustomExtension at h
  unfold FloatInitialized
  by_cases h1 : GetProcAddress hParent ids.SZFN_INTERNAL_INVOKEFLOAT = NULL
  · simp [h1, hne] at h
  · by_cases h2 : GetProcAddress hParent ids.SZFN_INTERNAL_ALLOCHOSTFLT = NULL
    · simp [h1, h2, hne] at h
    · simp [h1, h2] at h
      subst h
      exact ⟨⟨h1, h2⟩, rfl, rfl, rfl⟩

/-- What a successful double Initialize leaves. -/
theorem initDouble_success {F D : Type} (ids : FunctionIDs) (s s1 : ExtState F D)
    (hParent : HMODULE) (k : Int)
    (h : DLL_InitDoubleCustomExtension ids s hParent k = (s1, 0)) :
    DoubleInitialized s1 ∧ s1.m_lKernel = k ∧ s1.m_pfnf = s.m_pfnf ∧
      s1.m_pfnfAllocHost = s.m_pfnfAllocHost := by
  have hne := status_codes_nonzero.2.2
  unfold DLL_InitDoubleCustomExtension at h
  unfold DoubleInitialized
  by_cases h1 : GetProcAddress hParent ids.SZFN_INTERNAL_INVOKEDOUBLE = NULL
  · simp [h1, hne] at h
  · by_cases h2 : GetProcAddress hParent ids.SZFN_INTERNAL_ALLOCHOSTDBL = NULL
    · simp [h1, h2, hne] at h
    · simp [h1, h2] at h
      subst h
      exact ⟨⟨h1, h2⟩, rfl, rfl, rfl⟩

/-- A failing Initialize keeps the kernel index. -/
theorem init_fail_keeps_kernel {F D : Type} (ids : FunctionIDs) (s : ExtState F D)
    (hParent : HMODULE) (k : Int) :
    ((DLL_InitFloatCustomExtension ids s hParent k).2 ≠ 0 →
      (DLL_InitFloatCustomExtension ids s hParent k).1.m_lKernel = s.m_lKernel) ∧
    ((DLL_InitDoubleCustomExtension ids s hParent k).2 ≠ 0 →
      (DLL_InitDoubleCustomExtension ids s hParent k).1.m_lKernel = s.m_lKernel) := by
  constructor
  · unfold DLL_InitFloatCustomExtension
    by_cases h1 : GetProcAddress hParent ids.SZFN_INTERNAL_INVOKEFLOAT = NULL
    · simp [h1]
    · by_cases h2 : GetProcAddress hParent ids.SZFN_INTERNAL_ALLOCHOSTFLT = NULL
      · simp [h1, h2]
      · simp [h1, h2]
  · unfold DLL_InitDoubleCustomExtension
    by_cases h1 : GetProcAddress hParent ids.SZFN_INTERNAL_INVOKEDOUBLE = NULL
    · simp [h1]
    · by_cases h2 : GetProcAddress hParent ids.SZFN_INTERNAL_ALLOCHOSTDBL = NULL
      · simp [h1, h2]
      · simp [h1, h2]

/-- C13: the kernel index is one value for both precisions. After a successful float
Initialize with index k1 followed by a successful double Initialize with index k2, the
next Invoke of either precision with a selector in {1,2} passes k2 to its allocation
callback, and so not k1 when the two differ; likewise in the reverse order, where the
float Initialize is the most recent one; and a failing Initialize of either precision
leaves the kernel index as it was. -/
theorem kernel_index_shared {F D : Type} [Mul F] [Mul D] (host : HostCode F D)
    (ids : FunctionIDs) (s : ExtState F D) (h1 h2 : HMODULE) (k1 k2 : Int)
    (lfnIdx lInput lErrMax : Int) (mem : CallerMem) (hsel : lfnIdx = 1 ∨ lfnIdx = 2) :
    (∀ s1 s2 : ExtState F D, DLL_InitFloatCustomExtension ids s h1 k1 = (s1, 0) →
      DLL_InitDoubleCustomExtension ids s1 h2 k2 = (s2, 0) →
      s2.m_lKernel = k2 ∧
      (∀ (pInput : List F) (f : AllocHostFn F),
        host.allocHostFloat s2.m_pfnfAllocHost = some f → readCount lInput ≤ pInput.length →
        ∃ r a, DLL_InvokeFloatCustomExtension host s2 lfnIdx pInput lInput mem lErrMax
            = some r ∧ r.calls = [a] ∧ a.lKernelIdx = k2 ∧ (k1 ≠ k2 → a.lKernelIdx ≠ k1)) ∧
      (∀ (pInput : List D) (f : AllocHostFn D),
        host.allocHostDouble s2.m_pfndfAllocHost = some f → readCount lInput ≤ pInput.length →
        ∃ r a, DLL_InvokeDoubleCustomExtension host s2 lfnIdx pInput lInput mem lErrMax
            = some r ∧ r.calls = [a] ∧ a.lKernelIdx = k2)) ∧
    (∀ s1 s2 : ExtState F D, DLL_InitDoubleCustomExtension ids s h1 k1 = (s1, 0) →
      DLL_InitFloatCustomExtension ids s1 h2 k2 = (s2, 0) →
      s2.m_lKernel = k2 ∧
      (∀ (pInput : List F) (f : AllocHostFn F),
        host.allocHostFloat s2.m_pfnfAllocHost = some f → readCount lInput ≤ pInput.length →
        ∃ r a, DLL_InvokeFloatCustomExtension host s2 lfnIdx pInput lInput mem lErrMax
            = some r ∧ r.calls = [a] ∧ a.lKernelIdx = k2) ∧
      (∀ (pInput : List D) (f : AllocHostFn D),
        host.allocHostDouble s2.m_pfndfAllocHost = some f → readCount lInput ≤ pInput.length →
        ∃ r a, DLL_InvokeDoubleCustomExtension host s2 lfnIdx pInput lInput mem lErrMax
            = some r ∧ r.calls = [a] ∧ a.lKernelIdx = k2 ∧ (k1 ≠ k2 → a.lKernelIdx ≠ k1))) ∧
    (∀ (hParent : HMODULE) (k : Int),
      ((DLL_InitFloatCustomExtension ids s hParent k).2 ≠ 0 →
        (DLL_InitFloatCustomExtension ids s hParent k).1.m_lKernel = s.m_lKernel) ∧
      ((DLL_InitDoubleCustomExtension ids s hParent k).2 ≠ 0 →
        (DLL_InitDoubleCustomExtension ids s hParent k).1.m_lKernel = s.m_lKernel)) := by
  refine ⟨?_, ?_, fun hParent k => init_fail_keeps_kernel ids s hParent k⟩
  · intro s1 s2 e1 e2
    obtain ⟨hF1, _, _, _⟩ := initFloat_success ids s s1 h1 k1 e1
    obtain ⟨hD2, hk, hp, hpa⟩ := initDouble_success ids s1 s2 h2 k2 e2
    have hF2 : FloatInitialized s2 := by
      unfold FloatInitialized at *
      rw [hp, hpa]; exact hF1
    refine ⟨hk, ?_, ?_⟩
    · intro pInput f hf hlen
      refine ⟨_, _, invokeFloat_transform host s2 lfnIdx pInput lInput mem lErrMax f hF2 hf
        hsel hlen, rfl, hk, ?_⟩
      intro hne
      show s2.m_lKernel ≠ k1
      rw [hk]; exact fun h => hne h.symm
    · intro pInput f hf hlen
      exact ⟨_, _, invokeDouble_transform host s2 lfnIdx pInput lInput mem lErrMax f hD2 hf
        hsel hlen, rfl, hk⟩
  · intro s1 s2 e1 e2
    obtain ⟨hD1, _, _, _⟩ := initDouble_success ids s s1 h1 k1 e1
    obtain ⟨hF2, hk, hp, hpa⟩ := initFloat_success ids s1 s2 h2 k2 e2
    have hD2 : DoubleInitialized s2 := by
      unfold DoubleInitialized at *
      rw [hp, hpa]; exact hD1
    refine ⟨hk, ?_, ?_⟩
    · intro pInput f hf hlen
      exact ⟨_, _, invokeFloat_transform host s2 lfnIdx pInput lInput mem lErrMax f hF2 hf
        hsel hlen, rfl, hk⟩
    · intro pInput f hf hlen
      refine ⟨_, _, invokeDouble_transform host s2 lfnIdx pInput lInput mem lErrMax f hD2 hf
        hsel hlen, rfl, hk, ?_⟩
      intro hne
      show s2.m_lKernel ≠ k1
      rw [hk]; exact fun h => hne h.symm

/-- C13, worked example: a float Initialize with kernel index 3, then a double
Initialize with kernel index 8: the next float Invoke passes 8 to the float allocator;
and a float Initialize on a module exporting nothing afterwards fails and keeps 8. -/
theorem kernel_index_shared_witness :
    (∃ r a, DLL_InvokeFloatCustomExtension exHostOk
          (DLL_InitDoubleCustomExtension exIds exFloatReady exFullModule 8).1
          1 [2, 3, 4] 3 exMem 5 = some r ∧
        r.calls = [a] ∧ a.lKernelIdx = 8 ∧ a.lKernelIdx ≠ 3) ∧
    (DLL_InitFloatCustomExtension exIds
        (DLL_InitDoubleCustomExtension exIds exFloatReady exFullModule 8).1
        exEmptyModule 5).1.m_lKernel = 8 := by
  have h := kernel_index_shared exHostOk exIds exLoaded exFullModule exFullModule 3 8 1 3 5
    exMem (Or.inl rfl)
  constructor
  · obtain ⟨r, a, hr, hc, hk, hne⟩ := (h.1 exFloatReady
      (DLL_InitDoubleCustomExtension exIds exFloatReady exFullModule 8).1 rfl rfl).2.1
      [2, 3, 4] exAllocOk rfl (by decide)
    exact ⟨r, a, hr, hc, hk, hne (by decide)⟩
  · exact ((kernel_index_shared exHostOk exIds
      (DLL_InitDoubleCustomExtension exIds exFloatReady exFullModule 8).1
      exFullModule exFullModule 3 8 1 3 5 exMem (Or.inl rfl)).2.2 exEmptyModule 5).1
      (by decide)

/-! ## The characters of the error buffer -/

/-- Character by character, what `_tcsncpy` leaves in a destination that can hold `count`
characters. -/
theorem tcsncpy_chars (dest src : List Char) (count : Nat) (h : count ≤ dest.length) :
    ∃ e, tcsncpy dest src count = some e ∧
      (∀ j, j < min count src.length → e[j]? = src[j]?) ∧
      (∀ j, src.length ≤ j → j < count → e[j]? = some NUL) ∧
      (∀ j, count ≤ j → e[j]? = dest[j]?) := by
  refine ⟨_, if_pos h, ?_, ?_, ?_⟩
  · intro j hj
    rw [List.append_assoc, List.getElem?_append_left (by rw [List.length_take]; omega),
      List.getElem?_take_of_lt (by omega)]
  · intro j h1 h2
    have hA : (List.take count src).length = src.length := by
      rw [List.length_take]; omega
    rw [List.append_assoc, List.getElem?_append_right (by omega),
      List.getElem?_append_left (by rw [List.length_replicate]; omega),
      List.getElem?_replicate, if_pos (by omega)]
  · intro j hj
    have hAB : (List.take count src ++ List.replicate (count - src.length) NUL).length
        = count := by
      rw [List.length_append, List.length_take, List.length_replicate]; omega
    rw [List.getElem?_append_right (by omega), hAB, List.getElem?_drop]
    congr 1
    omega

theorem NUL_not_in_message : NUL ∉ MSG_NOT_SUPPORTED := by decide

/-- The error buffer after the `default:` branch, character by character, for a capacity
in the range of a LONG that the buffer really holds. -/
theorem default_message_chars (szErr : List Char) (lErrMax : Int) (h0 : 0 ≤ lErrMax)
    (hlong : lErrMax < 2 ^ 31) (hfit : lErrMax ≤ szErr.length) :
    ∃ e, tcsncpy szErr MSG_NOT_SUPPORTED (toSizeT lErrMax) = some e ∧
      e.length = szErr.length ∧
      (∀ j : Nat, j < min lErrMax.toNat 40 → e[j]? = MSG_NOT_SUPPORTED[j]?) ∧
      (∀ j : Nat, 40 ≤ j → (j : Int) < lErrMax → e[j]? = some NUL) ∧
      (∀ j : Nat, lErrMax ≤ (j : Int) → e[j]? = szErr[j]?) ∧
      (lErrMax ≤ 40 → NUL ∉ e.take lErrMax.toNat) := by
  have hc : lErrMax.toNat ≤ szErr.length := by omega
  obtain ⟨e, he, h1, h2, h3⟩ := tcsncpy_chars szErr MSG_NOT_SUPPORTED lErrMax.toNat hc
  obtain ⟨e2, he2, hl, ht, _⟩ := tcsncpy_spec szErr MSG_NOT_SUPPORTED lErrMax.toNat hc
  have hee : e2 = e := Option.some.inj (he2.symm.trans he)
  subst hee
  rw [MSG_NOT_SUPPORTED_length] at h1 h2 ht
  rw [toSizeT_of_long lErrMax h0 hlong]
  refine ⟨e2, he, hl, h1, ?_, ?_, ?_⟩
  · intro j hj1 hj2
    exact h2 j hj1 (by omega)
  · intro j hj
    exact h3 j (by omega)
  · intro hle hmem
    have hmin : min lErrMax.toNat 40 = lErrMax.toNat := by omega
    rw [hmin] at ht
    rw [ht] at hmem
    exact NUL_not_in_message (List.mem_of_mem_take hmem)

/-- C14: in an Initialized state of a precision, for every selector outside {1,2} and
every error-buffer capacity c ≥ 0, a LONG that the error buffer really holds, Invoke
returns NotSupported and afterwards the characters of the error buffer at positions
below min(c, 40) are those of the 40-character message "The function specified is not
supported.", the characters at positions 40 ≤ j < c are NUL, and the characters at
positions ≥ c are the ones that were there; when c ≤ 40 none of the c characters written
is a NUL, so no terminator is written. Float and double. -/
theorem invoke_unsupported_message_chars {F D : Type} [Mul F] [Mul D] (host : HostCode F D)
    (s : ExtState F D) (lfnIdx lInput lErrMax : Int) (mem : CallerMem)
    (h1 : lfnIdx ≠ 1) (h2 : lfnIdx ≠ 2) (h0 : 0 ≤ lErrMax) (hlong : lErrMax < 2 ^ 31)
    (hfit : lErrMax ≤ mem.szErr.length) :
    MSG_NOT_SUPPORTED = "The function specified is not supported.".toList ∧
    MSG_NOT_SUPPORTED.length = 40 ∧
    (∀ (pInput : List F), FloatInitialized s →
      ∃ e, DLL_InvokeFloatCustomExtension host s lfnIdx pInput lInput mem lErrMax
          = some ⟨ERROR_NOT_SUPPORTED, s, { mem with szErr := e }, []⟩ ∧
        e.length = mem.szErr.length ∧
        (∀ j : Nat, j < min lErrMax.toNat 40 → e[j]? = MSG_NOT_SUPPORTED[j]?) ∧
        (∀ j : Nat, 40 ≤ j → (j : Int) < lErrMax → e[j]? = some NUL) ∧
        (∀ j : Nat, lErrMax ≤ (j : Int) → e[j]? = mem.szErr[j]?) ∧
        (lErrMax ≤ 40 → NUL ∉ e.take lErrMax.toNat)) ∧
    (∀ (pInput : List D), DoubleInitialized s →
      ∃ e, DLL_InvokeDoubleCustomExtension host s lfnIdx pInput lInput mem lErrMax
          = some ⟨ERROR_NOT_SUPPORTED, s, { mem with szErr := e }, []⟩ ∧
        e.length = mem.szErr.length ∧
        (∀ j : Nat, j < min lErrMax.toNat 40 → e[j]? = MSG_NOT_SUPPORTED[j]?) ∧
        (∀ j : Nat, 40 ≤ j → (j : Int) < lErrMax → e[j]? = some NUL) ∧
        (∀ j : Nat, lErrMax ≤ (j : Int) → e[j]? = mem.szErr[j]?) ∧
        (lErrMax ≤ 40 → NUL ∉ e.take lErrMax.toNat)) := by
  obtain ⟨e, he, hrest⟩ := default_message_chars mem.szErr lErrMax h0 hlong hfit
  refine ⟨rfl, MSG_NOT_SUPPORTED_length, ?_, ?_⟩
  · intro pInput hinit
    refine ⟨e, ?_, hrest⟩
    rw [invokeFloat_default host s lfnIdx pInput lInput mem lErrMax hinit.1 h1 h2, he]
    rfl
  · intro pInput hinit
    refine ⟨e, ?_, hrest⟩
    rw [invokeDouble_default host s lfnIdx pInput lInput mem lErrMax hinit.1 h1 h2, he]
    rfl

/-- C14, worked example: selector 3 with capacity 42 on an error buffer of 44
characters: position 0 holds 'T', position 39 the final '.', positions 40 and 41 hold
NUL, and positions 42 and 43 still hold 'x'. Float and double. -/
theorem invoke_unsupported_message_chars_witness :
    (∃ e, DLL_InvokeFloatCustomExtension exHostOk exBothReady 3 [2, 3, 4] 3 exWideMem 42
        = some ⟨ERROR_NOT_SUPPORTED, exBothReady, { exWideMem with szErr := e }, []⟩ ∧
      e[0]? = some 'T' ∧ e[39]? = some '.' ∧ e[40]? = some NUL ∧ e[41]? = some NUL ∧
      e[42]? = some 'x' ∧ e[43]? = some 'x' ∧ e.length = 44) ∧
    (∃ e, DLL_InvokeDoubleCustomExtension exHostOk exBothReady 3 [2, 3, 4] 3 exWideMem 42
        = some ⟨ERROR_NOT_SUPPORTED, exBothReady, { exWideMem with szErr := e }, []⟩ ∧
      e[0]? = some 'T' ∧ e[39]? = some '.' ∧ e[40]? = some NUL ∧ e[41]? = some NUL ∧
      e[42]? = some 'x' ∧ e[43]? = some 'x' ∧ e.length = 44) := by
  have h := invoke_unsupported_message_chars exHostOk exBothReady 3 3 42 exWideMem
    (by decide) (by decide) (by decide) (by decide) (by decide)
  constructor
  · obtain ⟨e, he, hl, hm, hn, hk, _⟩ := h.2.2.1 [2, 3, 4] (by decide)
    exact ⟨e, he, hm 0 (by decide), hm 39 (by decide), hn 40 (by decide) (by decide),
      hn 41 (by decide) (by decide), hk 42 (by decide), hk 43 (by decide), hl⟩
  · obtain ⟨e, he, hl, hm, hn, hk, _⟩ := h.2.2.2 [2, 3, 4] (by decide)
    exact ⟨e, he, hm 0 (by decide), hm 39 (by decide), hn 40 (by decide) (by decide),
      hn 41 (by decide) (by decide), hk 42 (by decide), hk 43 (by decide), hl⟩

/-! ## Bounds of the transform loops -/

/-- The recorded loop computes what the loop computes. -/
theorem transformLoopLog_fst {α : Type} (op : α → α) (pInput : List α) (lInput : Int) :
    ∀ (k i : Nat) (buf : WorkBuf α), 1024 - i = k →
      (transformLoopLog op pInput lInput i buf).1 = transformLoop op pInput lInput i buf := by
  intro k
  induction k with
  | zero =>
    intro i buf hk
    have hg : ¬ ((i : Int) < lInput ∧ i < 1024) := by omega
    rw [transformLoopLog, transformLoop, if_neg hg, if_neg hg]
  | succ k ih =>
    intro i buf hk
    rw [transformLoopLog, transformLoop]
    by_cases hg : (i : Int) < lInput ∧ i < 1024
    · have hcap : i < CAPACITY := hg.2
      rw [if_pos hg, if_pos hg]
      cases hx : pInput[i]? with
      | none => rfl
      | some x =>
        simp only [WorkBuf.write, dif_pos hcap]
        exact ih (i + 1) _ (by omega)
    · rw [if_neg hg, if_neg hg]

/-- Every access the recorded loop attempts is in bounds, whatever memory the input
pointer really designates. -/
theorem transformLoopLog_inBounds {α : Type} (op : α → α) (pInput : List α) (lInput : Int) :
    ∀ (k i : Nat) (buf : WorkBuf α), 1024 - i = k →
      ∀ a ∈ (transformLoopLog op pInput lInput i buf).2, a.inBounds lInput := by
  intro k
  induction k with
  | zero =>
    intro i buf hk a ha
    have hg : ¬ ((i : Int) < lInput ∧ i < 1024) := by omega
    rw [transformLoopLog, if_neg hg] at ha
    exact absurd ha (List.not_mem_nil a)
  | succ k ih =>
    intro i buf hk a ha
    rw [transformLoopLog] at ha
    by_cases hg : (i : Int) < lInput ∧ i < 1024
    · have hcap : i < CAPACITY := hg.2
      have hr : (Access.read i).inBounds lInput := by
        show (i : Int) < min lInput 1024
        omega
      have hw : (Access.write i).inBounds lInput := hcap
      rw [if_pos hg] at ha
      cases hx : pInput[i]? with
      | none =>
        rw [hx] at ha
        simp only [List.mem_singleton] at ha
        rw [ha]; exact hr
      | some x =>
        rw [hx] at ha
        simp only [WorkBuf.write, dif_pos hcap, List.mem_cons] at ha
        rcases ha with rfl | rfl | ha
        · exact hr
        · exact hw
        · exact ih (i + 1) _ (by omega) a ha
    · rw [if_neg hg] at ha
      exact absurd ha (List.not_mem_nil a)

/-- For a passed length that is not positive the loop attempts no access. -/
theorem transformLoopLog_nonpos {α : Type} (op : α → α) (pInput : List α) (lInput : Int)
    (buf : WorkBuf α) (h : lInput ≤ 0) :
    transformLoopLog op pInput lInput 0 buf = (some buf, []) := by
  have hg : ¬ (((0 : Nat) : Int) < lInput ∧ 0 < 1024) := by omega
  rw [transformLoopLog, if_neg hg]

/-- On an input that is shorter than the range the loop visits, the loop reads past its
end. -/
theorem transformLoop_short {α : Type} (op : α → α) (pInput : List α) (lInput : Int)
    (hshort : pInput.length < readCount lInput) :
    ∀ (k i : Nat) (buf : WorkBuf α), pInput.length - i = k → i ≤ pInput.length →
      transformLoop op pInput lInput i buf = none := by
  intro k
  induction k with
  | zero =>
    intro i buf hk hi
    have hg : (i : Int) < lInput ∧ i < 1024 := (loop_guard_iff lInput i).2 (by omega)
    rw [transformLoop, if_pos hg, List.getElem?_eq_none (by omega)]
  | succ k ih =>
    intro i buf hk hi
    have hg : (i : Int) < lInput ∧ i < 1024 := (loop_guard_iff lInput i).2 (by omega)
    have hcap : i < CAPACITY := hg.2
    have hil : i < pInput.length := by omega
    rw [transformLoop, if_pos hg]
    simp only [List.getElem?_eq_getElem hil, WorkBuf.write, dif_pos hcap]
    exact ih (i + 1) _ (by omega) (by omega)

/-- A whole loop ends exactly when the input really holds the elements it visits. -/
theorem transformLoop_isSome_iff {α : Type} (op : α → α) (pInput : List α) (lInput : Int)
    (buf : WorkBuf α) :
    (transformLoop op pInput lInput 0 buf).isSome ↔ readCount lInput ≤ pInput.length := by
  constructor
  · intro h
    by_contra hlt
    rw [transformLoop_short op pInput lInput (by omega) _ 0 buf rfl (Nat.zero_le _)] at h
    exact absurd h (by simp)
  · intro h
    rw [transformLoop_eq op pInput lInput buf h]
    rfl

/-- C15: for each precision, every selector in {1,2} and every passed length n, positive,
above 1024 or negative: every access the transform loop attempts, on whatever memory the
input pointer designates, is a write of the working buffer at an index below 1024 or a
read of the input at an index below min(n, 1024); the recorded loop is the loop Invoke
runs; the loop ends without an out-of-range access exactly when the input really holds
min(max(n,0), 1024) elements, and then an Initialized Invoke returns with the buffer the
loop produced. -/
theorem transform_loops_in_bounds {F D : Type} [Mul F] [Mul D] (host : HostCode F D)
    (s : ExtState F D) (lfnIdx lInput lErrMax : Int) (mem : CallerMem)
    (hsel : lfnIdx = 1 ∨ lfnIdx = 2) :
    (∀ (pInput : List F),
      (∀ a ∈ (transformLoopLog (selectedOp lfnIdx) pInput lInput 0 s.m_rgDataF).2,
        a.inBounds lInput) ∧
      (transformLoopLog (selectedOp lfnIdx) pInput lInput 0 s.m_rgDataF).1
        = transformLoop (selectedOp lfnIdx) pInput lInput 0 s.m_rgDataF ∧
      ((transformLoop (selectedOp lfnIdx) pInput lInput 0 s.m_rgDataF).isSome ↔
        min lInput.toNat 1024 ≤ pInput.length) ∧
      (min lInput.toNat 1024 ≤ pInput.length →
        ∀ (f : AllocHostFn F), FloatInitialized s →
          host.allocHostFloat s.m_pfnfAllocHost = some f →
          ∃ r, DLL_InvokeFloatCustomExtension host s lfnIdx pInput lInput mem lErrMax
              = some r ∧
            transformLoop (selectedOp lfnIdx) pInput lInput 0 s.m_rgDataF
              = some r.state.m_rgDataF)) ∧
    (∀ (pInput : List D),
      (∀ a ∈ (transformLoopLog (selectedOp lfnIdx) pInput lInput 0 s.m_rgDataD).2,
        a.inBounds lInput) ∧
      (transformLoopLog (selectedOp lfnIdx) pInput lInput 0 s.m_rgDataD).1
        = transformLoop (selectedOp lfnIdx) pInput lInput 0 s.m_rgDataD ∧
      ((transformLoop (selectedOp lfnIdx) pInput lInput 0 s.m_rgDataD).isSome ↔
        min lInput.toNat 1024 ≤ pInput.length) ∧
      (min lInput.toNat 1024 ≤ pInput.length →
        ∀ (f : AllocHostFn D), DoubleInitialized s →
          host.allocHostDouble s.m_pfndfAllocHost = some f →
          ∃ r, DLL_InvokeDoubleCustomExtension host s lfnIdx pInput lInput mem lErrMax
              = some r ∧
            transformLoop (selectedOp lfnIdx) pInput lInput 0 s.m_rgDataD
              = some r.state.m_rgDataD)) := by
  constructor
  · intro pInput
    refine ⟨transformLoopLog_inBounds _ pInput lInput _ 0 _ rfl,
      transformLoopLog_fst _ pInput lInput _ 0 _ rfl,
      transformLoop_isSome_iff _ pInput lInput _, ?_⟩
    intro hlen f hinit hf
    exact ⟨_, invokeFloat_transform host s lfnIdx pInput lInput mem lErrMax f hinit hf hsel
      hlen, transformLoop_eq _ pInput lInput _ hlen⟩
  · intro pInput
    refine ⟨transformLoopLog_inBounds _ pInput lInput _ 0 _ rfl,
      transformLoopLog_fst _ pInput lInput _ 0 _ rfl,
      transformLoop_isSome_iff _ pInput lInput _, ?_⟩
    intro hlen f hinit hf
    exact ⟨_, invokeDouble_transform host s lfnIdx pInput lInput mem lErrMax f hinit hf hsel
      hlen, transformLoop_eq _ pInput lInput _ hlen⟩

/-- C15, worked example: squaring with passed length 2000 an input of 1024 ones, in a
state with both precisions initialised: every attempted access is in bounds and Invoke
returns; with passed length -5 and no input memory at all the same holds. Float and
double. -/
theorem transform_loops_in_bounds_witness :
    ((∀ a ∈ (transformLoopLog (selectedOp 1) (List.replicate 1024 (1 : Int)) 2000 0
          exBothReady.m_rgDataF).2, a.inBounds 2000) ∧
      (∃ r, DLL_InvokeFloatCustomExtension exHostOk exBothReady 1 (List.replicate 1024 1)
          2000 exMem 5 = some r) ∧
      (∃ r, DLL_InvokeDoubleCustomExtension exHostOk exBothReady 1 (List.replicate 1024 1)
          2000 exMem 5 = some r)) ∧
    ((∃ r, DLL_InvokeFloatCustomExtension exHostOk exBothReady 2 [] (-5) exMem 5 = some r) ∧
      (∃ r, DLL_InvokeDoubleCustomExtension exHostOk exBothReady 2 [] (-5) exMem 5
          = some r)) := by
  have h := transform_loops_in_bounds exHostOk exBothReady 1 2000 5 exMem (Or.inl rfl)
  have h2 := transform_loops_in_bounds exHostOk exBothReady 2 (-5) 5 exMem (Or.inr rfl)
  have hlen : min (2000 : Int).toNat 1024 ≤ (List.replicate 1024 (1 : Int)).length := by
    rw [List.length_replicate]; decide
  refine ⟨⟨(h.1 (List.replicate 1024 1)).1, ?_, ?_⟩, ?_, ?_⟩
  · obtain ⟨r, hr, _⟩ := (h.1 (List.replicate 1024 1)).2.2.2 hlen exAllocOk (by decide) rfl
    exact ⟨r, hr⟩
  · obtain ⟨r, hr, _⟩ := (h.2 (List.replicate 1024 1)).2.2.2 hlen exAllocOk (by decide) rfl
    exact ⟨r, hr⟩
  · obtain ⟨r, hr, _⟩ := (h2.1 []).2.2.2 (by decide) exAllocOk (by decide) rfl
    exact ⟨r, hr⟩
  · obtain ⟨r, hr, _⟩ := (h2.2 []).2.2.2 (by decide) exAllocOk (by decide) rfl
    exact ⟨r, hr⟩

/-! ## What a transform leaves in the working buffers -/

/-- A loop that ends leaves the cells past the visited range as they were. -/
theorem transformLoop_keeps_tail {α : Type} (op : α → α) (pInput : List α) (lInput : Int)
    (buf buf1 : WorkBuf α) (h : transformLoop op pInput lInput 0 buf = some buf1)
    (i : Nat) (hi : readCount lInput ≤ i) : buf1.read i = buf.read i := by
  have hlen : readCount lInput ≤ pInput.length :=
    (transformLoop_isSome_iff op pInput lInput buf).1 (by rw [h]; rfl)
  rw [transformLoop_eq op pInput lInput buf hlen] at h
  rw [← Option.some.inj h]
  exact transformed_read_keep op pInput (readCount lInput) buf i hi

/-- C16: for each precision, every returning Invoke with a selector in {1,2} and passed
length n leaves every cell of its working buffer at an index ≥ min(max(n,0), 1024) with
the value it had, and leaves the other precision's working buffer unchanged. On an
Initialized precision and an input that really holds the visited elements such an Invoke
does return, and a later Invoke of the same precision with a shorter passed length hands
its allocator a buffer whose cells between the two lengths still hold the results of the
earlier call. -/
theorem invoke_working_buffer_frame {F D : Type} [Mul F] [Mul D] (host : HostCode F D)
    (s : ExtState F D) (lfnIdx lInput lErrMax : Int) (mem : CallerMem)
    (hsel : lfnIdx = 1 ∨ lfnIdx = 2) :
    (∀ (pInput : List F),
      (∀ r, DLL_InvokeFloatCustomExtension host s lfnIdx pInput lInput mem lErrMax = some r →
        (∀ i : Nat, readCount lInput ≤ i → r.state.m_rgDataF.read i = s.m_rgDataF.read i) ∧
        r.state.m_rgDataD = s.m_rgDataD) ∧
      (∀ (f : AllocHostFn F), FloatInitialized s →
        host.allocHostFloat s.m_pfnfAllocHost = some f → readCount lInput ≤ pInput.length →
        ∃ r, DLL_InvokeFloatCustomExtension host s lfnIdx pInput lInput mem lErrMax = some r ∧
          ∀ (lfnIdx2 lInput2 lErrMax2 : Int) (pInput2 : List F) (mem2 : CallerMem),
            (lfnIdx2 = 1 ∨ lfnIdx2 = 2) → readCount lInput2 ≤ pInput2.length →
            ∃ r2 a2, DLL_InvokeFloatCustomExtension host r.state lfnIdx2 pInput2 lInput2 mem2
                lErrMax2 = some r2 ∧ r2.calls = [a2] ∧
              ∀ (i : Nat) (hi : i < pInput.length), readCount lInput2 ≤ i →
                i < readCount lInput →
                a2.pSrc.read i = some (selectedOp lfnIdx pInput[i]))) ∧
    (∀ (pInput : List D),
      (∀ r, DLL_InvokeDoubleCustomExtension host s lfnIdx pInput lInput mem lErrMax = some r →
        (∀ i : Nat, readCount lInput ≤ i → r.state.m_rgDataD.read i = s.m_rgDataD.read i) ∧
        r.state.m_rgDataF = s.m_rgDataF) ∧
      (∀ (f : AllocHostFn D), DoubleInitialized s →
        host.allocHostDouble s.m_pfndfAllocHost = some f → readCount lInput ≤ pInput.length →
        ∃ r, DLL_InvokeDoubleCustomExtension host s lfnIdx pInput lInput mem lErrMax = some r ∧
          ∀ (lfnIdx2 lInput2 lErrMax2 : Int) (pInput2 : List D) (mem2 : CallerMem),
            (lfnIdx2 = 1 ∨ lfnIdx2 = 2) → readCount lInput2 ≤ pInput2.length →
            ∃ r2 a2, DLL_InvokeDoubleCustomExtension host r.state lfnIdx2 pInput2 lInput2 mem2
                lErrMax2 = some r2 ∧ r2.calls = [a2] ∧
              ∀ (i : Nat) (hi : i < pInput.length), readCount lInput2 ≤ i →
                i < readCount lInput →
                a2.pSrc.read i = some (selectedOp lfnIdx pInput[i]))) := by
  have hcap : readCount lInput ≤ 1024 := by unfold readCount; omega
  constructor
  · intro pInput
    constructor
    · intro r hr
      refine ⟨?_, (invokeFloat_frame host s lfnIdx pInput lInput mem lErrMax r hr).2⟩
      intro i hi
      rcases invokeFloat_returns host s lfnIdx pInput lInput mem lErrMax r hr with
        ⟨_, rfl⟩ | ⟨_, _, _, e, rfl⟩ | ⟨_, _, _, buf, f, _, hloop, rfl⟩
      · rfl
      · rfl
      · exact transformLoop_keeps_tail _ pInput lInput _ buf hloop i hi
    · intro f hinit hf hlen
      refine ⟨_, invokeFloat_transform host s lfnIdx pInput lInput mem lErrMax f hinit hf hsel
        hlen, ?_⟩
      intro lfnIdx2 lInput2 lErrMax2 pInput2 mem2 hsel2 hlen2
      refine ⟨_, _, invokeFloat_transform host _ lfnIdx2 pInput2 lInput2 mem2 lErrMax2 f
        hinit hf hsel2 hlen2, rfl, ?_⟩
      intro i hi h1 h2
      show (transformed (selectedOp lfnIdx2) pInput2 0 (readCount lInput2)
        (transformed (selectedOp lfnIdx) pInput 0 (readCount lInput) s.m_rgDataF)).read i = _
      rw [transformed_read_keep _ pInput2 _ _ i h1]
      exact transformed_read _ pInput _ _ i h2 hi (by omega)
  · intro pInput
    constructor
    · intro r hr
      refine ⟨?_, (invokeDouble_frame host s lfnIdx pInput lInput mem lErrMax r hr).2⟩
      intro i hi
      rcases invokeDouble_returns host s lfnIdx pInput lInput mem lErrMax r hr with
        ⟨_, rfl⟩ | ⟨_, _, _, e, rfl⟩ | ⟨_, _, _, buf, f, _, hloop, rfl⟩
      · rfl
      · rfl
      · exact transformLoop_keeps_tail _ pInput lInput _ buf hloop i hi
    · intro f hinit hf hlen
      refine ⟨_, invokeDouble_transform host s lfnIdx pInput lInput mem lErrMax f hinit hf
        hsel hlen, ?_⟩
      intro lfnIdx2 lInput2 lErrMax2 pInput2 mem2 hsel2 hlen2
      refine ⟨_, _, invokeDouble_transform host _ lfnIdx2 pInput2 lInput2 mem2 lErrMax2 f
        hinit hf hsel2 hlen2, rfl, ?_⟩
      intro i hi h1 h2
      show (transformed (selectedOp lfnIdx2) pInput2 0 (readCount lInput2)
        (transformed (selectedOp lfnIdx) pInput 0 (readCount lInput) s.m_rgDataD)).read i = _
      rw [transformed_read_keep _ pInput2 _ _ i h1]
      exact transformed_read _ pInput _ _ i h2 hi (by omega)

/-- C16, worked example: squaring [2,3,4] leaves cell 3 of the float working buffer and
the whole double working buffer as they were; cubing [5] afterwards hands the allocator a
buffer whose cells 1 and 2 still hold 9 and 16. The same with the precisions swapped. -/
theorem invoke_working_buffer_frame_witness :
    (∃ r r2 a2, DLL_InvokeFloatCustomExtension exHostOk exBothReady 1 [2, 3, 4] 3 exMem 5
        = some r ∧ r.state.m_rgDataF.read 3 = some 0 ∧
      r.state.m_rgDataD = exBothReady.m_rgDataD ∧
      DLL_InvokeFloatCustomExtension exHostOk r.state 2 [5] 1 exMem 5 = some r2 ∧
      r2.calls = [a2] ∧ a2.pSrc.read 1 = some 9 ∧ a2.pSrc.read 2 = some 16) ∧
    (∃ r r2 a2, DLL_InvokeDoubleCustomExtension exHostOk exBothReady 1 [2, 3, 4] 3 exMem 5
        = some r ∧ r.state.m_rgDataD.read 3 = some 0 ∧
      r.state.m_rgDataF = exBothReady.m_rgDataF ∧
      DLL_InvokeDoubleCustomExtension exHostOk r.state 2 [5] 1 exMem 5 = some r2 ∧
      r2.calls = [a2] ∧ a2.pSrc.read 1 = some 9 ∧ a2.pSrc.read 2 = some 16) := by
  have h := invoke_working_buffer_frame exHostOk exBothReady 1 3 5 exMem (Or.inl rfl)
  constructor
  · obtain ⟨r, hr, hlater⟩ := (h.1 [2, 3, 4]).2 exAllocOk (by decide) rfl (by decide)
    have hfr := (h.1 [2, 3, 4]).1 r hr
    obtain ⟨r2, a2, hr2, hc2, hel⟩ := hlater 2 1 5 [5] exMem (Or.inr rfl) (by decide)
    exact ⟨r, r2, a2, hr, (hfr.1 3 (by decide)).trans rfl, hfr.2, hr2, hc2,
      hel 1 (by decide) (by decide) (by decide), hel 2 (by decide) (by decide) (by decide)⟩
  · obtain ⟨r, hr, hlater⟩ := (h.2 [2, 3, 4]).2 exAllocOk (by decide) rfl (by decide)
    have hfr := (h.2 [2, 3, 4]).1 r hr
    obtain ⟨r2, a2, hr2, hc2, hel⟩ := hlater 2 1 5 [5] exMem (Or.inr rfl) (by decide)
    exact ⟨r, r2, a2, hr, (hfr.1 3 (by decide)).trans rfl, hfr.2, hr2, hc2,
      hel 1 (by decide) (by decide) (by decide), hel 2 (by decide) (by decide) (by decide)⟩

/-! ## Passed lengths that are not positive -/

theorem readCount_of_nonpos (lInput : Int) (h : lInput ≤ 0) : readCount lInput = 0 := by
  unfold readCount
  omega

/-- Transforming an empty range changes nothing. -/
theorem transformed_empty {α : Type} (op : α → α) (pInput : List α) (buf : WorkBuf α) :
    transformed op pInput 0 0 buf = buf := by
  funext j
  unfold transformed
  rw [if_neg (by omega)]

/-- C17: in an Initialized state of a precision, for a selector in {1,2} and every passed
length n ≤ 0, negative ones included, whatever memory the input pointer designates:
the loop attempts no read of the input and no write of the working buffer, Invoke
returns with the globals unchanged after one allocator call with the state's kernel
index, element count n, the untouched working buffer and flag false, its status is that
call's status, and when that call returns 0 the status is 0 and the output length is
n. Float and double. -/
theorem invoke_nonpositive_length {F D : Type} [Mul F] [Mul D] (host : HostCode F D)
    (s : ExtState F D) (lfnIdx lInput lErrMax : Int) (mem : CallerMem)
    (hsel : lfnIdx = 1 ∨ lfnIdx = 2) (hn : lInput ≤ 0) :
    (∀ (pInput : List F) (f : AllocHostFn F), FloatInitialized s →
      host.allocHostFloat s.m_pfnfAllocHost = some f →
      (transformLoopLog (selectedOp lfnIdx) pInput lInput 0 s.m_rgDataF).2 = [] ∧
      ∃ r, DLL_InvokeFloatCustomExtension host s lfnIdx pInput lInput mem lErrMax = some r ∧
        r.state = s ∧
        r.calls = [⟨s.m_lKernel, lInput, mem.pOutput, s.m_rgDataF, false⟩] ∧
        r.ret = (f ⟨s.m_lKernel, lInput, mem.pOutput, s.m_rgDataF, false⟩).lErr ∧
        ((f ⟨s.m_lKernel, lInput, mem.pOutput, s.m_rgDataF, false⟩).lErr = 0 →
          r.ret = 0 ∧ r.mem.lOutput = lInput)) ∧
    (∀ (pInput : List D) (f : AllocHostFn D), DoubleInitialized s →
      host.allocHostDouble s.m_pfndfAllocHost = some f →
      (transformLoopLog (selectedOp lfnIdx) pInput lInput 0 s.m_rgDataD).2 = [] ∧
      ∃ r, DLL_InvokeDoubleCustomExtension host s lfnIdx pInput lInput mem lErrMax = some r ∧
        r.state = s ∧
        r.calls = [⟨s.m_lKernel, lInput, mem.pOutput, s.m_rgDataD, false⟩] ∧
        r.ret = (f ⟨s.m_lKernel, lInput, mem.pOutput, s.m_rgDataD, false⟩).lErr ∧
        ((f ⟨s.m_lKernel, lInput, mem.pOutput, s.m_rgDataD, false⟩).lErr = 0 →
          r.ret = 0 ∧ r.mem.lOutput = lInput)) := by
  have hrc : readCount lInput = 0 := readCount_of_nonpos lInput hn
  constructor
  · intro pInput f hinit hf
    have hlog := transformLoopLog_nonpos (selectedOp lfnIdx) pInput lInput s.m_rgDataF hn
    have hargs : floatAllocArgs s lfnIdx pInput lInput mem
        = ⟨s.m_lKernel, lInput, mem.pOutput, s.m_rgDataF, false⟩ := by
      unfold floatAllocArgs
      rw [hrc, transformed_empty]
    have hr := invokeFloat_transform host s lfnIdx pInput lInput mem lErrMax f hinit hf hsel
      (by rw [hrc]; exact Nat.zero_le _)
    rw [hargs] at hr
    refine ⟨by rw [hlog], _, hr, rfl, rfl, rfl, ?_⟩
    intro h0
    exact ⟨h0, memAfterAlloc_lOutput mem lInput _ h0⟩
  · intro pInput f hinit hf
    have hlog := transformLoopLog_nonpos (selectedOp lfnIdx) pInput lInput s.m_rgDataD hn
    have hargs : doubleAllocArgs s lfnIdx pInput lInput mem
        = ⟨s.m_lKernel, lInput, mem.pOutput, s.m_rgDataD, false⟩ := by
      unfold doubleAllocArgs
      rw [hrc, transformed_empty]
    have hr := invokeDouble_transform host s lfnIdx pInput lInput mem lErrMax f hinit hf hsel
      (by rw [hrc]; exact Nat.zero_le _)
    rw [hargs] at hr
    refine ⟨by rw [hlog], _, hr, rfl, rfl, rfl, ?_⟩
    intro h0
    exact ⟨h0, memAfterAlloc_lOutput mem lInput _ h0⟩

/-- C17, worked example: selector 1 with passed length -5 and no input memory, and
selector 2 with passed length 0: Invoke returns 0, the globals are unchanged, the
allocator was called once with count -5 or 0, and the output length is -5 or 0. Float
and double. -/
theorem invoke_nonpositive_length_witness :
    (∃ r a, DLL_InvokeFloatCustomExtension exHostOk exBothReady 1 [] (-5) exMem 5 = some r ∧
      r.state = exBothReady ∧ r.calls = [a] ∧ a.lCount = -5 ∧ r.ret = 0 ∧
      r.mem.lOutput = -5) ∧
    (∃ r a, DLL_InvokeDoubleCustomExtension exHostOk exBothReady 2 [2, 3] 0 exMem 5 = some r ∧
      r.state = exBothReady ∧ r.calls = [a] ∧ a.lCount = 0 ∧ r.ret = 0 ∧
      r.mem.lOutput = 0) := by
  constructor
  · obtain ⟨_, r, hr, hs, hc, _, hok⟩ :=
      (invoke_nonpositive_length exHostOk exBothReady 1 (-5) 5 exMem (Or.inl rfl)
        (by decide)).1 [] exAllocOk (by decide) rfl
    exact ⟨r, _, hr, hs, hc, rfl, (hok rfl).1, (hok rfl).2⟩
  · obtain ⟨_, r, hr, hs, hc, _, hok⟩ :=
      (invoke_nonpositive_length exHostOk exBothReady 2 0 5 exMem (Or.inr rfl)
        (by decide)).2 [2, 3] exAllocOk (by decide) rfl
    exact ⟨r, _, hr, hs, hc, rfl, (hok rfl).1, (hok rfl).2⟩

end MyCaffeExt
